import Mathlib

/-!
Verification of the indicator calculation and value-area/profile engine of the
candleChart repository: the CVD engine, the FRVP (Fixed-Range Volume Profile)
calculator with its iterative Value-Area expansion, and the RSI oscillator.

The JavaScript source is shallowly embedded: numbers are modelled as exact
rationals (`ℚ`); JavaScript's IEEE-754 doubles, `NaN` and `Infinity` have no
counterpart here, so divisions by zero follow the Lean convention `x / 0 = 0`.
Mutation (`row.totalVolume += …`) is modelled by structure updates threaded
through folds, and `throw` is modelled with `Except String`.
-/

namespace CandleChartSpec

/-- An OHLCV bar `{time, open, high, low, close, volume}`.  The `open` field is
named `open_` because `open` is a Lean keyword. -/
structure Bar where
  time : Int
  open_ : ℚ
  high : ℚ
  low : ℚ
  close : ℚ
  volume : ℚ
deriving DecidableEq, Inhabited

/-- A derived `{time, value}` point. -/
structure Pt where
  time : Int
  value : ℚ
deriving DecidableEq

/-- One price bucket of an FRVP profile, as built by
`FRVPCalculator.createPriceLevelRows`. -/
structure ProfileRow where
  index : Nat
  priceLow : ℚ
  priceHigh : ℚ
  priceLevel : ℚ
  upVolume : ℚ
  downVolume : ℚ
  totalVolume : ℚ
  delta : ℚ
deriving DecidableEq

/-- FRVP configuration: `rowsLayout ∈ {Number, Tick, Percentage}`. -/
inductive RowsLayout where
  | Number
  | Tick
  | Percentage
deriving DecidableEq

/-- The FRVP settings consumed by the calculator (`rowSize` defaults to 200 and
`rowsLayout` to `Number` in the source's destructuring; here they are explicit
fields).  `valueAreaVolume = 0` stands for the absent/falsy case of
`settings.valueAreaVolume || 70`. -/
structure Settings where
  rowSize : ℚ
  rowsLayout : RowsLayout
  valueAreaVolume : ℚ
  developingPOC : Bool
  developingVA : Bool
deriving DecidableEq

/-- The row built by iteration `i` of `createPriceLevelRows`'s loop:
`[low + i·size, min(low + (i+1)·size, high)]` with zeroed volumes. -/
def mkProfileRow (low high actualRowSize : ℚ) (i : Nat) : ProfileRow :=
  let priceLow := low + (i : ℚ) * actualRowSize
  let priceHigh := min (priceLow + actualRowSize) high
  { index := i
    priceLow := priceLow
    priceHigh := priceHigh
    priceLevel := (priceLow + priceHigh) / 2
    upVolume := 0
    downVolume := 0
    totalVolume := 0
    delta := 0 }

/-- `FRVPCalculator.createPriceLevelRows`: split `[low, high]` into equal-height
contiguous rows.  The JavaScript loop `for (let i = 0; i < numRows; i++)` with a
(possibly fractional) numeric bound `numRows ≥ 1` executes `⌈numRows⌉` times.
The row-count arithmetic follows JavaScript doubles where that matters: a `0/0`
division makes `Math.ceil(0/0) = NaN`, then `Math.max(1, NaN) = NaN`, and a
`NaN` loop bound runs the row loop zero times — so the `Tick` layout with zero
price range and zero row size, and the `Percentage` layout with zero price
range (its row height `priceRange·rowSize/100` is then `0`), produce an empty
row list (`numRows? = none` here).  A zero divisor under a non-zero numerator
yields `Infinity` in JavaScript and the row loop never terminates; that corner
has no counterpart in a total model (the rational convention `x / 0 = 0`
applies) and no verified claim depends on it. -/
def createPriceLevelRows (low high : ℚ) (settings : Settings) : List ProfileRow :=
  let priceRange := high - low
  let numRows? : Option ℚ :=
    match settings.rowsLayout with
    | RowsLayout.Number => some settings.rowSize
    | RowsLayout.Tick =>
        if priceRange = 0 ∧ settings.rowSize = 0 then none
        else some ((⌈priceRange / settings.rowSize⌉ : ℤ) : ℚ)
    | RowsLayout.Percentage =>
        if priceRange = 0 then none
        else some ((⌈priceRange / ((priceRange * settings.rowSize) / 100)⌉ : ℤ) : ℚ)
  match numRows? with
  | none => []
  | some numRows =>
      let numRows := max 1 numRows
      let actualRowSize := priceRange / numRows
      (List.range ⌈numRows⌉.toNat).map (mkProfileRow low high actualRowSize)

/-- `FRVPCalculator.rangesOverlap`. -/
def rangesOverlap (low1 high1 low2 high2 : ℚ) : Bool :=
  decide (low1 ≤ high2) && decide (low2 ≤ high1)

/-- `FRVPCalculator.calculateOverlapRatio` (renamed `overlapFraction` here):
what fraction of `[low1, high1]` overlaps `[low2, high2]`; `0` for a
zero-or-negative-width first range. -/
def overlapFraction (low1 high1 low2 high2 : ℚ) : ℚ :=
  let overlapLow := max low1 low2
  let overlapHigh := min high1 high2
  let overlapRange := max 0 (overlapHigh - overlapLow)
  let totalRange := high1 - low1
  if 0 < totalRange then overlapRange / totalRange else 0

/-- One `row` update of `FRVPCalculator.distributeVolume`'s inner `forEach`:
add the bar's pro-rata volume to the row if their price ranges overlap. -/
def addBarToRow (bar : Bar) (row : ProfileRow) : ProfileRow :=
  if rangesOverlap bar.low bar.high row.priceLow row.priceHigh then
    let frac := overlapFraction bar.low bar.high row.priceLow row.priceHigh
    let volumeForRow := bar.volume * frac
    let isUpBar := bar.open_ ≤ bar.close
    let up := if isUpBar then row.upVolume + volumeForRow else row.upVolume
    let down := if isUpBar then row.downVolume else row.downVolume + volumeForRow
    { row with
      upVolume := up
      downVolume := down
      totalVolume := row.totalVolume + volumeForRow
      delta := up - down }
  else row

/-- `FRVPCalculator.distributeVolume`: fold every bar over every row. -/
def distributeVolume (bars : List Bar) (rows : List ProfileRow) : List ProfileRow :=
  bars.foldl (fun rs bar => rs.map (addBarToRow bar)) rows

/-- The amount of volume `addBarToRow` adds to a row's `totalVolume`: the
bar's volume scaled by the overlap fraction when the ranges overlap, else 0. -/
def barRowContribution (bar : Bar) (row : ProfileRow) : ℚ :=
  if rangesOverlap bar.low bar.high row.priceLow row.priceHigh then
    bar.volume * overlapFraction bar.low bar.high row.priceLow row.priceHigh
  else 0

/-- The reducer of `calculatePOC`: keep the row with strictly greater
`totalVolume`. -/
def pocStep (maxRow currentRow : ProfileRow) : ProfileRow :=
  if maxRow.totalVolume < currentRow.totalVolume then currentRow else maxRow

/-- `FRVPCalculator.calculatePOC`: `rows.reduce` keeping the row with strictly
greater `totalVolume`, seeded with `rows[0]` (which JavaScript's `reduce` with
an initial value also visits as the first element). -/
def calculatePOC (rows : List ProfileRow) : Except String ProfileRow :=
  match rows with
  | [] => Except.error "No rows provided for POC calculation"
  | r0 :: _ => Except.ok (rows.foldl pocStep r0)

/-- The candidate choice of one iteration of `calculateValueArea`'s expansion
loop: `aboveRow` is `rows[aboveIndex]` when `aboveIndex ≥ 0`, `belowRow` is
`rows[belowIndex]` when `belowIndex < rows.length`; pick the lone candidate,
else the strictly larger `totalVolume`, else the one closer to the POC, else
the above side.  Returns the chosen row together with `true` for the above
side. -/
def chooseVACandidate (rows : List ProfileRow) (pocIndex : Int)
    (aboveIndex : Int) (belowIndex : Nat) : Option (ProfileRow × Bool) :=
  let aboveRow? := if 0 ≤ aboveIndex then rows[aboveIndex.toNat]? else none
  let belowRow? := if belowIndex < rows.length then rows[belowIndex]? else none
  match aboveRow?, belowRow? with
  | none, none => none
  | some a, none => some (a, true)
  | none, some b => some (b, false)
  | some a, some b =>
      if b.totalVolume < a.totalVolume then some (a, true)
      else if a.totalVolume < b.totalVolume then some (b, false)
      else
        let aboveDist := pocIndex - aboveIndex
        let belowDist := (belowIndex : Int) - pocIndex
        if aboveDist < belowDist then some (a, true)
        else if belowDist < aboveDist then some (b, false)
        else some (a, true)

/-- `Set.add` on the list modelling the JavaScript `Set` of value-area row
indices. -/
def setAdd (l : List Nat) (x : Nat) : List Nat :=
  if x ∈ l then l else l ++ [x]

/-- `rows.reduce((sum, r) => sum + r.totalVolume, 0)`. -/
def totalVolumeOf (rows : List ProfileRow) : ℚ :=
  (rows.map (fun r => r.totalVolume)).sum

/-- The combined `totalVolume` of the value-area row indices `vaRows` (the
accumulated value-area volume, re-expressed from the returned index set). -/
def vaRowsVolume (rows : List ProfileRow) (dflt : ProfileRow) (vaRows : List Nat) : ℚ :=
  (vaRows.map (fun idx => (rows.getD idx dflt).totalVolume)).sum

/-- The row list is indexed like an actual profile: the `index` field of each
row equals its position (`createPriceLevelRows` always produces such lists). -/
def wellIndexed (rows : List ProfileRow) : Prop :=
  ∀ i, ∀ hi : i < rows.length, (rows.get ⟨i, hi⟩).index = i

instance (rows : List ProfileRow) : Decidable (wellIndexed rows) := by
  unfold wellIndexed
  infer_instance

/-- Steps 4-8 of `calculateValueArea`: the `while` loop expanding the value
area outward from the POC.  State: accumulated volume, the set (list) of
value-area row indices, and the two cursors. -/
def vaLoop (rows : List ProfileRow) (pocIndex : Int) (targetVolume : ℚ)
    (accumulated : ℚ) (vaRows : List Nat) (aboveIndex : Int) (belowIndex : Nat) :
    ℚ × List Nat :=
  if accumulated < targetVolume ∧ (0 ≤ aboveIndex ∨ belowIndex < rows.length) then
    match h : chooseVACandidate rows pocIndex aboveIndex belowIndex with
    | none => (accumulated, vaRows)
    | some (chosenRow, true) =>
        if targetVolume < accumulated + chosenRow.totalVolume then (accumulated, vaRows)
        else
          vaLoop rows pocIndex targetVolume (accumulated + chosenRow.totalVolume)
            (setAdd vaRows chosenRow.index) (aboveIndex - 1) belowIndex
    | some (chosenRow, false) =>
        if targetVolume < accumulated + chosenRow.totalVolume then (accumulated, vaRows)
        else
          vaLoop rows pocIndex targetVolume (accumulated + chosenRow.totalVolume)
            (setAdd vaRows chosenRow.index) aboveIndex (belowIndex + 1)
  else (accumulated, vaRows)
termination_by (aboveIndex + 1).toNat + (rows.length - belowIndex)
decreasing_by
  · have h0 : 0 ≤ aboveIndex := by
      unfold chooseVACandidate at h
      by_cases ha : 0 ≤ aboveIndex
      · exact ha
      · exfalso
        simp only [ha, if_false] at h
        by_cases hb : belowIndex < rows.length
        · simp only [hb, if_true] at h
          cases hbr : rows[belowIndex]? with
          | none => rw [hbr] at h; simp at h
          | some b => rw [hbr] at h; simp at h
        · simp only [hb, if_false] at h
          simp at h
    omega
  · have h0 : belowIndex < rows.length := by
      unfold chooseVACandidate at h
      by_cases hb : belowIndex < rows.length
      · exact hb
      · exfalso
        simp only [hb, if_false] at h
        by_cases ha : 0 ≤ aboveIndex
        · simp only [ha, if_true] at h
          cases har : rows[aboveIndex.toNat]? with
          | none => rw [har] at h; simp at h
          | some a => rw [har] at h; simp at h
        · simp only [ha, if_false] at h
          simp at h
    omega

/-- Result record of `calculateValueArea`. -/
structure VAResult where
  vah : ProfileRow
  val : ProfileRow
  valueAreaRows : List Nat
deriving DecidableEq

/-- `FRVPCalculator.calculateValueArea`: the 9-step TradingView Value-Area
protocol.  `rows.indexOf(poc)` is `-1` in JavaScript when `poc` is not a member
of `rows`, which the `if h : poc ∈ rows` mirrors.  Step 9 sorts the value-area
rows by descending `priceLevel` (JavaScript `.sort((a, b) => b.priceLevel -
a.priceLevel)`, modelled with the stable `List.mergeSort`); `vah` is the first
and `val` the last element, `poc` standing in for the out-of-bounds accesses
that cannot occur. -/
def calculateValueArea (rows : List ProfileRow) (poc : ProfileRow)
    (vaPercentage : ℚ) : VAResult :=
  let totalVolume := totalVolumeOf rows
  if totalVolume = 0 then
    { vah := poc, val := poc, valueAreaRows := [poc.index] }
  else
    let targetVolume := totalVolume * (vaPercentage / 100)
    let pocIndex : Int := if poc ∈ rows then (rows.indexOf poc : Int) else -1
    let state := vaLoop rows pocIndex targetVolume poc.totalVolume [poc.index]
      (pocIndex - 1) (pocIndex + 1).toNat
    let vaRowsArray :=
      (state.2.map (fun idx => rows.getD idx poc)).mergeSort
        (fun a b => decide (b.priceLevel ≤ a.priceLevel))
    { vah := vaRowsArray.headD poc
      val := vaRowsArray.getLastD poc
      valueAreaRows := state.2 }

/-- `calculateDeltaForBar`: TradingView's per-bar CVD delta rules.  Bullish
bar `+volume`, bearish `-volume`; a doji compares with the previous bar's
close, then inherits the sign of the previous non-zero delta, and defaults to
`0`.  (`previousDelta` is always a number in the source's call sites, seeded
with `0`, so the `!== undefined` guard is vacuous here.) -/
def calculateDeltaForBar (bar : Bar) (previousBar : Option Bar) (previousDelta : ℚ) : ℚ :=
  if bar.open_ < bar.close then bar.volume
  else if bar.close < bar.open_ then -bar.volume
  else
    match previousBar with
    | some pb =>
        if pb.close < bar.close then bar.volume
        else if bar.close < pb.close then -bar.volume
        else if previousDelta ≠ 0 then
          (if 0 < previousDelta then bar.volume else -bar.volume)
        else 0
    | none =>
        if previousDelta ≠ 0 then
          (if 0 < previousDelta then bar.volume else -bar.volume)
        else 0

/-- Output element of `calculate1MinuteDeltas`. -/
structure DeltaPoint where
  time : Int
  delta : ℚ
  cumulativeDelta : ℚ
deriving DecidableEq

/-- The loop of `calculate1MinuteDeltas`, threading `previousBar`,
`previousDelta` and the running `cumulativeDelta`. -/
def calculate1MinuteDeltasGo : Option Bar → ℚ → ℚ → List Bar → List DeltaPoint
  | _, _, _, [] => []
  | previousBar, previousDelta, cumulativeDelta, bar :: rest =>
      let delta := calculateDeltaForBar bar previousBar previousDelta
      let cum := cumulativeDelta + delta
      { time := bar.time, delta := delta, cumulativeDelta := cum }
        :: calculate1MinuteDeltasGo (some bar) delta cum rest

/-- `calculate1MinuteDeltas`. -/
def calculate1MinuteDeltas (oneMinCandles : List Bar) : List DeltaPoint :=
  calculate1MinuteDeltasGo none 0 0 oneMinCandles

/-- Result of `calculateCVDForCandle`. -/
structure CvdOHLC where
  openCVD : ℚ
  highCVD : ℚ
  lowCVD : ℚ
  closeCVD : ℚ
deriving DecidableEq

/-- `calculateCVDForCandle`: with no 1-minute data every value is the inherited
`previousCloseCVD`; otherwise fold the per-bar deltas from `openCVD =
previousCloseCVD`, tracking the running min and max.  (The `targetCandle`
parameter of the source is unused by the computation and omitted.) -/
def calculateCVDForCandle (oneMinCandles : List Bar) (previousCloseCVD : ℚ) : CvdOHLC :=
  if oneMinCandles.isEmpty then
    { openCVD := previousCloseCVD, highCVD := previousCloseCVD,
      lowCVD := previousCloseCVD, closeCVD := previousCloseCVD }
  else
    let deltas := calculate1MinuteDeltas oneMinCandles
    let final := deltas.foldl
      (fun (st : ℚ × ℚ × ℚ) d =>
        let running := st.1 + d.delta
        (running, max st.2.1 running, min st.2.2 running))
      (previousCloseCVD, previousCloseCVD, previousCloseCVD)
    { openCVD := previousCloseCVD, highCVD := final.2.1,
      lowCVD := final.2.2, closeCVD := final.1 }

/-- A CVD output candle: cumulative-delta OHLC values plus the underlying
price candle. -/
structure CvdCandle where
  time : Int
  open_ : ℚ
  high : ℚ
  low : ℚ
  close : ℚ
  underlyingCandle : Bar
deriving DecidableEq, Inhabited

/-- The 1-minute bars falling in a target candle's window
`[candleStart, candleStart + timeframeSeconds)`. -/
def windowBars (oneMinCandles : List Bar) (candleStart timeframeSeconds : Int) : List Bar :=
  oneMinCandles.filter (fun c =>
    decide (candleStart ≤ c.time) && decide (c.time < candleStart + timeframeSeconds))

/-- The loop of `calculateCVD`, threading the running `cumulativeCVD` and the
`currentAnchorStart` (`none` models the initial JavaScript `null`).
`anchorStartOf` abstracts `getAnchorPeriodStart(·, anchorPeriod)`, whose body
is JavaScript `Date`/`Intl` calendar arithmetic (fixed IST offset, 09:15
session starts); the claims under verification depend only on whether two
candles map to the same anchor start, so it is kept as an opaque parameter. -/
def calculateCVDGo (anchorStartOf : Int → Int) (oneMinCandles : List Bar)
    (timeframeSeconds : Int) : ℚ → Option Int → List Bar → List CvdCandle
  | _, _, [] => []
  | cumulativeCVD, currentAnchorStart, candle :: rest =>
      let anchorStart := anchorStartOf candle.time
      let cum := if currentAnchorStart = some anchorStart then cumulativeCVD else 0
      let relevant := windowBars oneMinCandles candle.time timeframeSeconds
      let ohlc := calculateCVDForCandle relevant cum
      { time := candle.time, open_ := ohlc.openCVD, high := ohlc.highCVD,
        low := ohlc.lowCVD, close := ohlc.closeCVD, underlyingCandle := candle }
        :: calculateCVDGo anchorStartOf oneMinCandles timeframeSeconds
            ohlc.closeCVD (some anchorStart) rest

/-- `calculateCVD`: per target candle, reset the cumulative CVD when the
anchor start changes, gather the 1-minute bars of the window
`[candle.time, candle.time + resolution*60)`, and emit the CVD OHLC.
`resolution` is the parsed `options.chartTimeframe` in minutes. -/
def calculateCVD (candles oneMinCandles : List Bar) (anchorStartOf : Int → Int)
    (resolution : Int) : List CvdCandle :=
  calculateCVDGo anchorStartOf oneMinCandles (resolution * 60) 0 none candles

/-- The RSI formula of `calculateRSI` before clamping. -/
def rsiRaw (avgGain avgLoss : ℚ) : ℚ :=
  if avgLoss = 0 then (if avgGain = 0 then 50 else 100)
  else 100 - 100 / (1 + avgGain / avgLoss)

/-- The smoothing loop of `calculateRSI`: Wilder updates of `avgGain`/`avgLoss`
followed by the clamped RSI value, reported at the bar following the change. -/
def calculateRSIGo (period : Nat) : ℚ → ℚ → List (ℚ × ℚ × Bar) → List Pt
  | _, _, [] => []
  | avgGain, avgLoss, (g, l, d) :: rest =>
      let avgGain' := (avgGain * ((period : ℚ) - 1) + g) / period
      let avgLoss' := (avgLoss * ((period : ℚ) - 1) + l) / period
      let rsi := max 0 (min 100 (rsiRaw avgGain' avgLoss'))
      { time := d.time, value := rsi }
        :: calculateRSIGo period avgGain' avgLoss' rest

/-- `calculateRSI`: per-bar gains/losses, seed averages over the first
`period` changes, first RSI at `data[period].time`, then Wilder-smoothed
values. -/
def calculateRSI (data : List Bar) (period : Nat) : List Pt :=
  if data.length ≤ period then []
  else
    let closes := data.map (fun b => b.close)
    let changes := (closes.zip closes.tail).map (fun p => p.2 - p.1)
    let gains := changes.map (fun c => if 0 < c then c else 0)
    let losses := changes.map (fun c => if c < 0 then |c| else 0)
    let avgGain := (gains.take period).sum / period
    let avgLoss := (losses.take period).sum / period
    let firstPart : List Pt :=
      match data[period]? with
      | some d => [{ time := d.time, value := rsiRaw avgGain avgLoss }]
      | none => []
    firstPart ++ calculateRSIGo period avgGain avgLoss
      ((gains.drop period).zip ((losses.drop period).zip (data.drop (period + 1))))

/-- One sampled point of `calculateDeveloping`. -/
structure DevPoint where
  timestamp : Int
  poc : ℚ
  vah : ℚ
  val : ℚ
deriving DecidableEq

/-- The `metadata` record of `calculateProfile`'s result. -/
structure Metadata where
  totalVolume : ℚ
  totalBars : Nat
  priceRange : ℚ
  rowCount : Nat
deriving DecidableEq

/-- The result of `FRVPCalculator.calculateProfile`. -/
structure Profile where
  rows : List ProfileRow
  poc : ProfileRow
  vah : ProfileRow
  val : ProfileRow
  valueAreaRows : List Nat
  profileHigh : ℚ
  profileLow : ℚ
  developing : Option (List DevPoint)
  metadata : Metadata
deriving DecidableEq

/-- `Math.max(...bars.map(b => b.high))` over a non-empty list (`0` stands for
the `-Infinity` of the empty case, which is guarded against by the caller). -/
def profileHighOf (minuteBars : List Bar) : ℚ :=
  ((minuteBars.map (fun b => b.high)).max?).getD 0

/-- `Math.min(...bars.map(b => b.low))` over a non-empty list. -/
def profileLowOf (minuteBars : List Bar) : ℚ :=
  ((minuteBars.map (fun b => b.low)).min?).getD 0

/-- `FRVPCalculator.calculateProfile` without its developing-indicator step
(steps 1-4 and the assembled result).  The developing step is layered on top in
`calculateProfile`; this split is sound because `calculateDeveloping` re-invokes
the profile computation with both developing flags forced off, which makes that
inner call exactly this core.  `settings.valueAreaVolume || 70` is modelled by
treating `0` as the falsy/absent case. -/
def calculateProfileCore (minuteBars : List Bar) (settings : Settings) :
    Except String Profile :=
  if minuteBars.isEmpty then Except.error "No data provided for FRVP calculation"
  else
    let profileHigh := profileHighOf minuteBars
    let profileLow := profileLowOf minuteBars
    let rows := distributeVolume minuteBars
      (createPriceLevelRows profileLow profileHigh settings)
    match calculatePOC rows with
    | Except.error e => Except.error e
    | Except.ok poc =>
        let vaPct := if settings.valueAreaVolume = 0 then 70 else settings.valueAreaVolume
        let va := calculateValueArea rows poc vaPct
        Except.ok
          { rows := rows
            poc := poc
            vah := va.vah
            val := va.val
            valueAreaRows := va.valueAreaRows
            profileHigh := profileHigh
            profileLow := profileLow
            developing := none
            metadata :=
              { totalVolume := totalVolumeOf rows
                totalBars := minuteBars.length
                priceRange := profileHigh - profileLow
                rowCount := rows.length } }

/-- `FRVPCalculator.calculateDeveloping`: sample the profile on the bar
prefixes of lengths `step, 2·step, …` (`i <= minuteBars.length`), with
`step = max(1, ⌊n/50⌋)` and the developing flags forced off in the
recomputation; a prefix whose computation throws is skipped (`try/catch`). -/
def calculateDeveloping (minuteBars : List Bar) (settings : Settings) : List DevPoint :=
  let step := max 1 (minuteBars.length / 50)
  ((List.range (minuteBars.length / step)).map (fun k => (k + 1) * step)).filterMap
    (fun i =>
      let partialBars := minuteBars.take i
      match calculateProfileCore partialBars
          { settings with developingPOC := false, developingVA := false } with
      | Except.ok p =>
          some { timestamp := (partialBars.getLastD default).time
                 poc := p.poc.priceLevel
                 vah := p.vah.priceLevel
                 val := p.val.priceLevel }
      | Except.error _ => none)

/-- `FRVPCalculator.calculateProfile`: the core computation plus, when either
developing flag is set, the sampled developing indicators. -/
def calculateProfile (minuteBars : List Bar) (settings : Settings) :
    Except String Profile :=
  match calculateProfileCore minuteBars settings with
  | Except.error e => Except.error e
  | Except.ok core =>
      if settings.developingPOC || settings.developingVA then
        Except.ok { core with developing := some (calculateDeveloping minuteBars settings) }
      else Except.ok core

/-! ## Theorems -/

/-- C8: for a doji 1-minute bar (`close == open`), `calculateDeltaForBar`
returns `+volume` when a previous bar exists and the close is above its close,
`-volume` when below; otherwise it applies the sign of the previous non-zero
delta to `volume`, and returns `0` when no prior delta information exists. -/
theorem doji_delta_rules (bar : Bar) (previousBar : Option Bar) (previousDelta : ℚ)
    (hdoji : bar.close = bar.open_) :
    (∀ pb, previousBar = some pb → pb.close < bar.close →
      calculateDeltaForBar bar previousBar previousDelta = bar.volume) ∧
    (∀ pb, previousBar = some pb → bar.close < pb.close →
      calculateDeltaForBar bar previousBar previousDelta = -bar.volume) ∧
    ((previousBar = none ∨ ∃ pb, previousBar = some pb ∧ bar.close = pb.close) →
      (0 < previousDelta → calculateDeltaForBar bar previousBar previousDelta = bar.volume) ∧
      (previousDelta < 0 → calculateDeltaForBar bar previousBar previousDelta = -bar.volume) ∧
      (previousDelta = 0 → calculateDeltaForBar bar previousBar previousDelta = 0)) := by
  have h1 : ¬ bar.open_ < bar.close := by rw [hdoji]; exact lt_irrefl _
  have h2 : ¬ bar.close < bar.open_ := by rw [hdoji]; exact lt_irrefl _
  refine ⟨?_, ?_, ?_⟩
  · intro pb hpb hlt
    subst hpb
    simp only [calculateDeltaForBar, h1, h2, if_false, hlt, if_true]
  · intro pb hpb hlt
    subst hpb
    have hnlt : ¬ pb.close < bar.close := lt_asymm hlt
    simp only [calculateDeltaForBar, h1, h2, if_false, hnlt, hlt, if_true]
  · intro hcase
    refine ⟨?_, ?_, ?_⟩
    · intro hpos
      have hne : previousDelta ≠ 0 := ne_of_gt hpos
      rcases hcase with hnone | ⟨pb, hpb, heq⟩
      · subst hnone
        simp only [calculateDeltaForBar, h1, h2, if_false, hne, ne_eq,
          not_false_eq_true, if_true, hpos]
      · subst hpb
        have h3 : ¬ pb.close < bar.close := by rw [heq]; exact lt_irrefl _
        have h4 : ¬ bar.close < pb.close := by rw [heq]; exact lt_irrefl _
        simp only [calculateDeltaForBar, h1, h2, if_false, h3, h4, hne,
          ne_eq, not_false_eq_true, if_true, hpos]
    · intro hneg
      have hne : previousDelta ≠ 0 := ne_of_lt hneg
      have hnpos : ¬ 0 < previousDelta := not_lt_of_lt hneg
      rcases hcase with hnone | ⟨pb, hpb, heq⟩
      · subst hnone
        simp only [calculateDeltaForBar, h1, h2, if_false, hne, ne_eq,
          not_false_eq_true, if_true, hnpos]
      · subst hpb
        have h3 : ¬ pb.close < bar.close := by rw [heq]; exact lt_irrefl _
        have h4 : ¬ bar.close < pb.close := by rw [heq]; exact lt_irrefl _
        simp only [calculateDeltaForBar, h1, h2, if_false, h3, h4, hne,
          ne_eq, not_false_eq_true, if_true, hnpos]
    · intro hzero
      subst hzero
      rcases hcase with hnone | ⟨pb, hpb, heq⟩
      · subst hnone
        simp [calculateDeltaForBar, h1, h2]
      · subst hpb
        have h3 : ¬ pb.close < bar.close := by rw [heq]; exact lt_irrefl _
        have h4 : ¬ bar.close < pb.close := by rw [heq]; exact lt_irrefl _
        simp [calculateDeltaForBar, h1, h2, h3, h4]

/-- Witness for C8: the spec's concrete scenario 3 — a doji bar
(`open == close == 50`) following a bar with `close = 48` is assigned
`+volume`. -/
theorem doji_delta_rules_witness :
    calculateDeltaForBar { time := 1, open_ := 50, high := 51, low := 49, close := 50, volume := 7 }
      (some { time := 0, open_ := 48, high := 49, low := 47, close := 48, volume := 5 }) 0 = 7 :=
  (doji_delta_rules _ _ 0 rfl).1 _ rfl (by norm_num)

/-- C2: the candidate selection of each expansion-loop iteration of
`calculateValueArea`: a lone in-range candidate is chosen; with both in range,
the strictly greater `totalVolume` wins; on a volume tie, the candidate whose
index distance to the POC is smaller wins; and when the distances are also
equal, the above-side candidate is chosen. -/
theorem va_candidate_selection (rows : List ProfileRow) (pocIndex aboveIndex : Int)
    (belowIndex : Nat) :
    (∀ a, (if 0 ≤ aboveIndex then rows[aboveIndex.toNat]? else none) = some a →
      (if belowIndex < rows.length then rows[belowIndex]? else none) = none →
      chooseVACandidate rows pocIndex aboveIndex belowIndex = some (a, true)) ∧
    (∀ b, (if 0 ≤ aboveIndex then rows[aboveIndex.toNat]? else none) = none →
      (if belowIndex < rows.length then rows[belowIndex]? else none) = some b →
      chooseVACandidate rows pocIndex aboveIndex belowIndex = some (b, false)) ∧
    (∀ a b, (if 0 ≤ aboveIndex then rows[aboveIndex.toNat]? else none) = some a →
      (if belowIndex < rows.length then rows[belowIndex]? else none) = some b →
      ((b.totalVolume < a.totalVolume →
          chooseVACandidate rows pocIndex aboveIndex belowIndex = some (a, true)) ∧
       (a.totalVolume < b.totalVolume →
          chooseVACandidate rows pocIndex aboveIndex belowIndex = some (b, false)) ∧
       (a.totalVolume = b.totalVolume →
         ((pocIndex - aboveIndex < (belowIndex : Int) - pocIndex →
             chooseVACandidate rows pocIndex aboveIndex belowIndex = some (a, true)) ∧
          ((belowIndex : Int) - pocIndex < pocIndex - aboveIndex →
             chooseVACandidate rows pocIndex aboveIndex belowIndex = some (b, false)) ∧
          (pocIndex - aboveIndex = (belowIndex : Int) - pocIndex →
             chooseVACandidate rows pocIndex aboveIndex belowIndex = some (a, true)))))) := by
  refine ⟨?_, ?_, ?_⟩
  · intro a ha hb
    simp only [chooseVACandidate]
    rw [ha, hb]
  · intro b ha hb
    simp only [chooseVACandidate]
    rw [ha, hb]
  · intro a b ha hb
    refine ⟨?_, ?_, ?_⟩
    · intro hba
      simp only [chooseVACandidate]
      rw [ha, hb]
      simp only [hba, if_true]
    · intro hab
      have hnba : ¬ b.totalVolume < a.totalVolume := lt_asymm hab
      simp only [chooseVACandidate]
      rw [ha, hb]
      simp only [hnba, if_false, hab, if_true]
    · intro heq
      have hnba : ¬ b.totalVolume < a.totalVolume := by rw [heq]; exact lt_irrefl _
      have hnab : ¬ a.totalVolume < b.totalVolume := by rw [heq]; exact lt_irrefl _
      refine ⟨?_, ?_, ?_⟩
      · intro hd
        simp only [chooseVACandidate]
        rw [ha, hb]
        simp only [hnba, hnab, if_false, hd, if_true]
      · intro hd
        have hnd : ¬ pocIndex - aboveIndex < (belowIndex : Int) - pocIndex := lt_asymm hd
        simp only [chooseVACandidate]
        rw [ha, hb]
        simp only [hnba, hnab, if_false, hnd, hd, if_true]
      · intro hd
        have hnd : ¬ pocIndex - aboveIndex < (belowIndex : Int) - pocIndex := by
          rw [hd]; exact lt_irrefl _
        have hnd' : ¬ (belowIndex : Int) - pocIndex < pocIndex - aboveIndex := by
          rw [hd]; exact lt_irrefl _
        simp only [chooseVACandidate]
        rw [ha, hb]
        simp only [hnba, hnab, hnd, hnd', if_false]

/-- Witness for C2: a volume tie at equal distance from the POC picks the
above-side row. -/
theorem va_candidate_selection_witness :
    chooseVACandidate
      [{ index := 0, priceLow := 0, priceHigh := 1, priceLevel := 0, upVolume := 5,
         downVolume := 0, totalVolume := 5, delta := 5 },
       { index := 1, priceLow := 1, priceHigh := 2, priceLevel := 1, upVolume := 9,
         downVolume := 0, totalVolume := 9, delta := 9 },
       { index := 2, priceLow := 2, priceHigh := 3, priceLevel := 2, upVolume := 5,
         downVolume := 0, totalVolume := 5, delta := 5 }] 1 0 2 =
      some ({ index := 0, priceLow := 0, priceHigh := 1, priceLevel := 0, upVolume := 5,
              downVolume := 0, totalVolume := 5, delta := 5 }, true) :=
  (((va_candidate_selection
      [{ index := 0, priceLow := 0, priceHigh := 1, priceLevel := 0, upVolume := 5,
         downVolume := 0, totalVolume := 5, delta := 5 },
       { index := 1, priceLow := 1, priceHigh := 2, priceLevel := 1, upVolume := 9,
         downVolume := 0, totalVolume := 9, delta := 9 },
       { index := 2, priceLow := 2, priceHigh := 3, priceLevel := 2, upVolume := 5,
         downVolume := 0, totalVolume := 5, delta := 5 }] 1 0 2).2.2
      { index := 0, priceLow := 0, priceHigh := 1, priceLevel := 0, upVolume := 5,
        downVolume := 0, totalVolume := 5, delta := 5 }
      { index := 2, priceLow := 2, priceHigh := 3, priceLevel := 2, upVolume := 5,
        downVolume := 0, totalVolume := 5, delta := 5 }
      (by with_unfolding_all decide)
      (by with_unfolding_all decide)).2.2 (by with_unfolding_all decide)).2.2
    (by with_unfolding_all decide)

theorem pocFold_spec (l : List ProfileRow) (init : ProfileRow) :
    init.totalVolume ≤ (l.foldl pocStep init).totalVolume ∧
    (∀ x ∈ l, x.totalVolume ≤ (l.foldl pocStep init).totalVolume) ∧
    (l.foldl pocStep init = init ∨
      ∃ k, ∃ hk : k < l.length, l.get ⟨k, hk⟩ = l.foldl pocStep init ∧
        init.totalVolume < (l.foldl pocStep init).totalVolume ∧
        ∀ j, ∀ hj : j < l.length, j < k →
          (l.get ⟨j, hj⟩).totalVolume < (l.foldl pocStep init).totalVolume) := by
  induction l generalizing init with
  | nil => simp
  | cons c rest ih =>
      rw [List.foldl_cons]
      by_cases h : init.totalVolume < c.totalVolume
      · have hstep : pocStep init c = c := by simp [pocStep, h]
        rw [hstep]
        obtain ⟨ih1, ih2, ih3⟩ := ih c
        refine ⟨le_of_lt (lt_of_lt_of_le h ih1), ?_, ?_⟩
        · intro x hx
          rcases List.mem_cons.mp hx with hx0 | hx'
          · subst hx0; exact ih1
          · exact ih2 x hx'
        · rcases ih3 with hcm | ⟨k, hk, hget, hlt, hfirst⟩
          · right
            refine ⟨0, by simp, ?_, ?_, ?_⟩
            · simpa using hcm.symm
            · rw [hcm]; exact h
            · intro j hj hj0; omega
          · right
            refine ⟨k + 1, Nat.succ_lt_succ hk, ?_, lt_trans h hlt, ?_⟩
            · simpa using hget
            · intro j hj hjk
              cases j with
              | zero => simpa using hlt
              | succ j' =>
                  have hj' : j' < rest.length := by
                    simp at hj; omega
                  have := hfirst j' hj' (by omega)
                  simpa using this
      · have hstep : pocStep init c = init := by simp [pocStep, h]
        rw [hstep]
        obtain ⟨ih1, ih2, ih3⟩ := ih init
        have hc : c.totalVolume ≤ init.totalVolume := le_of_not_lt h
        refine ⟨ih1, ?_, ?_⟩
        · intro x hx
          rcases List.mem_cons.mp hx with hx0 | hx'
          · subst hx0; exact le_trans hc ih1
          · exact ih2 x hx'
        · rcases ih3 with hm | ⟨k, hk, hget, hlt, hfirst⟩
          · left; exact hm
          · right
            refine ⟨k + 1, Nat.succ_lt_succ hk, ?_, hlt, ?_⟩
            · simpa using hget
            · intro j hj hjk
              cases j with
              | zero => simpa using lt_of_le_of_lt hc hlt
              | succ j' =>
                  have hj' : j' < rest.length := by
                    simp at hj; omega
                  have := hfirst j' hj' (by omega)
                  simpa using this

/-- C6: for a non-empty row list, `calculatePOC` returns a row of the list
with maximum `totalVolume`, namely the first one attaining the maximum (all
rows at earlier positions have strictly smaller volume); on a profile-indexed
list this is the row with the smallest `index`, i.e. the lowest price. -/
theorem poc_first_max (rows : List ProfileRow) (hne : rows ≠ []) :
    ∃ r, calculatePOC rows = Except.ok r ∧ r ∈ rows ∧
      (∀ x ∈ rows, x.totalVolume ≤ r.totalVolume) ∧
      ∃ k, ∃ hk : k < rows.length, rows.get ⟨k, hk⟩ = r ∧
        (∀ j, ∀ hj : j < rows.length, j < k →
          (rows.get ⟨j, hj⟩).totalVolume < r.totalVolume) ∧
        (wellIndexed rows → ∀ x ∈ rows, x.totalVolume = r.totalVolume →
          r.index ≤ x.index) := by
  cases rows with
  | nil => exact absurd rfl hne
  | cons r0 rest =>
      obtain ⟨s1, s2, s3⟩ := pocFold_spec (r0 :: rest) r0
      refine ⟨(r0 :: rest).foldl pocStep r0, rfl, ?_, s2, ?_⟩
      · rcases s3 with hm | ⟨k, hk, hget, _, _⟩
        · rw [hm]; exact List.mem_cons_self r0 rest
        · rw [← hget]; exact List.get_mem _ _ _
      · rcases s3 with hm | ⟨k, hk, hget, hlt, hfirst⟩
        · refine ⟨0, by simp, by simpa using hm.symm, ?_, ?_⟩
          · intro j hj hj0; omega
          · intro hIdx x hx hvx
            have h0 : ((r0 :: rest).get ⟨0, by simp⟩).index = 0 :=
              hIdx 0 (by simp)
            simp at h0
            rw [hm, h0]
            exact Nat.zero_le x.index
        · refine ⟨k, hk, hget, hfirst, ?_⟩
          intro hIdx x hx hvx
          obtain ⟨⟨j, hj⟩, hjx⟩ := List.mem_iff_get.mp hx
          have hkidx : ((r0 :: rest).foldl pocStep r0).index = k := by
            rw [← hget]; exact hIdx k hk
          have hxidx : x.index = j := by
            rw [← hjx]; exact hIdx j hj
          rw [hkidx, hxidx]
          by_contra hcon
          have hjk : j < k := by omega
          have := hfirst j hj hjk
          rw [hjx, hvx] at this
          exact lt_irrefl _ this

/-- Witness for C6: volumes `3, 7, 7` — the POC is the first row attaining
the maximum (index 1). -/
theorem poc_first_max_witness :
    calculatePOC
      [{ index := 0, priceLow := 0, priceHigh := 1, priceLevel := 0, upVolume := 3,
         downVolume := 0, totalVolume := 3, delta := 3 },
       { index := 1, priceLow := 1, priceHigh := 2, priceLevel := 1, upVolume := 7,
         downVolume := 0, totalVolume := 7, delta := 7 },
       { index := 2, priceLow := 2, priceHigh := 3, priceLevel := 2, upVolume := 7,
         downVolume := 0, totalVolume := 7, delta := 7 }] =
      Except.ok { index := 1, priceLow := 1, priceHigh := 2, priceLevel := 1, upVolume := 7,
                  downVolume := 0, totalVolume := 7, delta := 7 } ∧
    (∃ r, calculatePOC
      [{ index := 0, priceLow := 0, priceHigh := 1, priceLevel := 0, upVolume := 3,
         downVolume := 0, totalVolume := 3, delta := 3 },
       { index := 1, priceLow := 1, priceHigh := 2, priceLevel := 1, upVolume := 7,
         downVolume := 0, totalVolume := 7, delta := 7 },
       { index := 2, priceLow := 2, priceHigh := 3, priceLevel := 2, upVolume := 7,
         downVolume := 0, totalVolume := 7, delta := 7 }] = Except.ok r ∧
      r ∈ [{ index := 0, priceLow := 0, priceHigh := 1, priceLevel := 0, upVolume := 3,
             downVolume := 0, totalVolume := 3, delta := 3 },
           { index := 1, priceLow := 1, priceHigh := 2, priceLevel := 1, upVolume := 7,
             downVolume := 0, totalVolume := 7, delta := 7 },
           { index := 2, priceLow := 2, priceHigh := 3, priceLevel := 2, upVolume := 7,
             downVolume := 0, totalVolume := 7, delta := 7 }]) :=
  ⟨by with_unfolding_all rfl,
   (poc_first_max _ (by with_unfolding_all decide)).elim
     (fun r hr => ⟨r, hr.1, hr.2.1⟩)⟩

theorem calculatePOC_ok (rows : List ProfileRow) (h : rows ≠ []) :
    ∃ r, calculatePOC rows = Except.ok r := by
  cases rows with
  | nil => exact absurd rfl h
  | cons r0 rest => exact ⟨_, rfl⟩

theorem ceil_max_one_toNat_pos (q : ℚ) : 0 < ⌈max 1 q⌉.toNat := by
  have h1 : (0 : ℚ) < max 1 q := lt_of_lt_of_le one_pos (le_max_left 1 q)
  have h2 : (0 : ℤ) < ⌈max 1 q⌉ := Int.ceil_pos.mpr h1
  omega

theorem createPriceLevelRows_Number_ne_nil (low high : ℚ) (s : Settings)
    (hl : s.rowsLayout = RowsLayout.Number) :
    createPriceLevelRows low high s ≠ [] := by
  simp only [createPriceLevelRows, hl, ne_eq, List.map_eq_nil_iff, List.range_eq_nil]
  exact Nat.pos_iff_ne_zero.mp (ceil_max_one_toNat_pos _)

theorem createPriceLevelRows_Percentage_nil (low : ℚ) (s : Settings)
    (hl : s.rowsLayout = RowsLayout.Percentage) :
    createPriceLevelRows low low s = [] := by
  simp [createPriceLevelRows, hl]

theorem distributeVolume_length (bars : List Bar) (rows : List ProfileRow) :
    (distributeVolume bars rows).length = rows.length := by
  unfold distributeVolume
  induction bars generalizing rows with
  | nil => rfl
  | cons b bs ih => rw [List.foldl_cons, ih, List.length_map]

theorem calculatePOC_error {rows : List ProfileRow} {e : String}
    (h : calculatePOC rows = Except.error e) :
    e = "No rows provided for POC calculation" := by
  cases rows with
  | nil =>
      unfold calculatePOC at h
      exact (Except.error.inj h).symm
  | cons r t =>
      unfold calculatePOC at h
      exact Except.noConfusion h

theorem calculateProfileCore_error {minuteBars : List Bar} {settings : Settings}
    {e : String} (h : minuteBars ≠ [])
    (hcore : calculateProfileCore minuteBars settings = Except.error e) :
    e = "No rows provided for POC calculation" := by
  unfold calculateProfileCore at hcore
  have hne : ¬ (minuteBars.isEmpty = true) := by
    simpa [List.isEmpty_iff] using h
  rw [if_neg hne] at hcore
  cases hpoc : calculatePOC (distributeVolume minuteBars
      (createPriceLevelRows (profileLowOf minuteBars) (profileHighOf minuteBars)
        settings)) with
  | error e' =>
      simp only [hpoc] at hcore
      rw [← Except.error.inj hcore]
      exact calculatePOC_error hpoc
  | ok poc =>
      simp only [hpoc] at hcore
      exact Except.noConfusion hcore

theorem calculateProfileCore_Number_ok (minuteBars : List Bar) (settings : Settings)
    (h : minuteBars ≠ []) (hl : settings.rowsLayout = RowsLayout.Number) :
    ∃ p, calculateProfileCore minuteBars settings = Except.ok p := by
  unfold calculateProfileCore
  have hne : ¬ (minuteBars.isEmpty = true) := by
    simpa [List.isEmpty_iff] using h
  rw [if_neg hne]
  have hrne : distributeVolume minuteBars
      (createPriceLevelRows (profileLowOf minuteBars) (profileHighOf minuteBars)
        settings) ≠ [] := by
    apply List.ne_nil_of_length_pos
    rw [distributeVolume_length]
    exact List.length_pos.mpr (createPriceLevelRows_Number_ne_nil _ _ _ hl)
  obtain ⟨r, hr⟩ := calculatePOC_ok _ hrne
  simp only [hr]
  exact ⟨_, rfl⟩

theorem calculateProfile_Number_ok (minuteBars : List Bar) (settings : Settings)
    (h : minuteBars ≠ []) (hl : settings.rowsLayout = RowsLayout.Number) :
    ∃ p, calculateProfile minuteBars settings = Except.ok p := by
  obtain ⟨p, hp⟩ := calculateProfileCore_Number_ok minuteBars settings h hl
  unfold calculateProfile
  rw [hp]
  cases hbool : settings.developingPOC || settings.developingVA
  · refine ⟨p, ?_⟩
    simp [hbool]
  · refine ⟨{ p with developing := some (calculateDeveloping minuteBars settings) }, ?_⟩
    simp [hbool]

theorem calculateProfile_no_empty_error (minuteBars : List Bar) (settings : Settings)
    (h : minuteBars ≠ []) :
    calculateProfile minuteBars settings ≠
      Except.error "No data provided for FRVP calculation" := by
  intro hcon
  unfold calculateProfile at hcon
  cases hcore : calculateProfileCore minuteBars settings with
  | error e =>
      simp only [hcore] at hcon
      have he := calculateProfileCore_error h hcore
      have h2 : e = "No data provided for FRVP calculation" := Except.error.inj hcon
      rw [he] at h2
      exact absurd h2 (by decide)
  | ok core =>
      simp only [hcore] at hcon
      split at hcon
      · exact Except.noConfusion hcon
      · exact Except.noConfusion hcon

theorem calculateProfile_degenerate (minuteBars : List Bar) (settings : Settings)
    (h : minuteBars ≠ []) (hl : settings.rowsLayout = RowsLayout.Percentage)
    (hdeg : profileHighOf minuteBars = profileLowOf minuteBars) :
    calculateProfile minuteBars settings =
      Except.error "No rows provided for POC calculation" := by
  have hcore : calculateProfileCore minuteBars settings =
      Except.error "No rows provided for POC calculation" := by
    unfold calculateProfileCore
    have hne : ¬ (minuteBars.isEmpty = true) := by
      simpa [List.isEmpty_iff] using h
    rw [if_neg hne]
    have hrows : createPriceLevelRows (profileLowOf minuteBars)
        (profileHighOf minuteBars) settings = [] := by
      rw [hdeg]
      exact createPriceLevelRows_Percentage_nil _ _ hl
    have hdist : distributeVolume minuteBars ([] : List ProfileRow) = [] := by
      have hlen := distributeVolume_length minuteBars []
      rwa [List.length_nil, List.length_eq_zero] at hlen
    simp only [hrows, hdist]
    rfl
  unfold calculateProfile
  rw [hcore]

/-- C7: `calculateProfile` fails with the empty-bars error exactly on an empty
(or missing) bar array and `calculatePOC` fails with the zero-rows error on an
empty row list; neither of these checks fires for non-empty input: a non-empty
row list always yields a POC, and for non-empty bars `calculateProfile` never
produces the empty-bars error — under the `Number` rows layout it succeeds
outright, while the degenerate zero-price-range `Percentage` corner (where
`Math.ceil(0/0) = NaN` builds zero rows) surfaces `calculatePOC`'s zero-rows
error, consistent with the zero-rows clause, not the empty-bars error. -/
theorem frvp_empty_input_errors :
    (∀ settings, calculateProfile [] settings =
      Except.error "No data provided for FRVP calculation") ∧
    calculatePOC [] = Except.error "No rows provided for POC calculation" ∧
    (∀ minuteBars settings, minuteBars ≠ [] →
      calculateProfile minuteBars settings ≠
        Except.error "No data provided for FRVP calculation") ∧
    (∀ rows, rows ≠ [] → ∃ r, calculatePOC rows = Except.ok r) ∧
    (∀ minuteBars settings, minuteBars ≠ [] →
      settings.rowsLayout = RowsLayout.Number →
      ∃ p, calculateProfile minuteBars settings = Except.ok p) ∧
    (∀ minuteBars settings, minuteBars ≠ [] →
      settings.rowsLayout = RowsLayout.Percentage →
      profileHighOf minuteBars = profileLowOf minuteBars →
      calculateProfile minuteBars settings =
        Except.error "No rows provided for POC calculation") :=
  ⟨fun _ => rfl, rfl,
   fun minuteBars settings h => calculateProfile_no_empty_error minuteBars settings h,
   fun rows h => calculatePOC_ok rows h,
   fun minuteBars settings h hl => calculateProfile_Number_ok minuteBars settings h hl,
   fun minuteBars settings h hl hdeg =>
     calculateProfile_degenerate minuteBars settings h hl hdeg⟩

/-- Witness for C7: the empty array errors; a one-bar array under the `Number`
layout succeeds (and does not hit the empty-bars check); a one-row list yields
a POC; and a single zero-width bar under the `Percentage` layout reaches the
zero-rows error of `calculatePOC`. -/
theorem frvp_empty_input_errors_witness :
    calculateProfile []
      { rowSize := 2, rowsLayout := RowsLayout.Number, valueAreaVolume := 70,
        developingPOC := false, developingVA := false } =
      Except.error "No data provided for FRVP calculation" ∧
    (([({ time := 0, open_ := 10, high := 12, low := 9, close := 11, volume := 100 } : Bar)] ≠
        ([] : List Bar)) ∧
      calculateProfile
        [{ time := 0, open_ := 10, high := 12, low := 9, close := 11, volume := 100 }]
        { rowSize := 2, rowsLayout := RowsLayout.Number, valueAreaVolume := 70,
          developingPOC := false, developingVA := false } ≠
        Except.error "No data provided for FRVP calculation") ∧
    (([({ index := 0, priceLow := 0, priceHigh := 1, priceLevel := 0, upVolume := 3,
          downVolume := 0, totalVolume := 3, delta := 3 } : ProfileRow)] ≠
        ([] : List ProfileRow)) ∧
      ∃ r, calculatePOC
        [{ index := 0, priceLow := 0, priceHigh := 1, priceLevel := 0, upVolume := 3,
           downVolume := 0, totalVolume := 3, delta := 3 }] = Except.ok r) ∧
    (∃ p, calculateProfile
      [{ time := 0, open_ := 10, high := 12, low := 9, close := 11, volume := 100 }]
      { rowSize := 2, rowsLayout := RowsLayout.Number, valueAreaVolume := 70,
        developingPOC := false, developingVA := false } = Except.ok p) ∧
    calculateProfile
      [{ time := 0, open_ := 5, high := 5, low := 5, close := 5, volume := 10 }]
      { rowSize := 10, rowsLayout := RowsLayout.Percentage, valueAreaVolume := 70,
        developingPOC := false, developingVA := false } =
      Except.error "No rows provided for POC calculation" :=
  ⟨frvp_empty_input_errors.1 _,
   ⟨by decide, frvp_empty_input_errors.2.2.1 _ _ (by decide)⟩,
   ⟨by decide, frvp_empty_input_errors.2.2.2.1 _ (by decide)⟩,
   frvp_empty_input_errors.2.2.2.2.1 _ _ (by decide) (by decide),
   frvp_empty_input_errors.2.2.2.2.2 _ _ (by decide) (by decide)
     (by with_unfolding_all decide)⟩

theorem rsiRaw_bounds (g l : ℚ) (hg : 0 ≤ g) (hl : 0 ≤ l) :
    0 ≤ rsiRaw g l ∧ rsiRaw g l ≤ 100 := by
  unfold rsiRaw
  by_cases h : l = 0
  · by_cases hg0 : g = 0 <;> simp [h, hg0] <;> norm_num
  · simp only [h, if_false]
    have hl' : 0 < l := lt_of_le_of_ne hl (Ne.symm h)
    have hrs : 0 ≤ g / l := div_nonneg hg (le_of_lt hl')
    have h1 : (1 : ℚ) ≤ 1 + g / l := by linarith
    have h0 : (0 : ℚ) < 1 + g / l := by linarith
    constructor
    · have hle : 100 / (1 + g / l) ≤ 100 := div_le_self (by norm_num) h1
      linarith
    · have hpos : 0 < 100 / (1 + g / l) := div_pos (by norm_num) h0
      linarith

theorem calculateRSIGo_bounds (period : Nat) (avgGain avgLoss : ℚ)
    (triples : List (ℚ × ℚ × Bar)) :
    ∀ p ∈ calculateRSIGo period avgGain avgLoss triples,
      0 ≤ p.value ∧ p.value ≤ 100 := by
  induction triples generalizing avgGain avgLoss with
  | nil => intro p hp; simp [calculateRSIGo] at hp
  | cons t rest ih =>
      intro p hp
      obtain ⟨g, l, d⟩ := t
      simp only [calculateRSIGo] at hp
      rw [List.mem_cons] at hp
      rcases hp with h1 | h2
      · subst h1
        refine ⟨le_max_left 0 _, ?_⟩
        exact max_le (by norm_num) (min_le_left _ _)
      · exact ih _ _ p h2

theorem gainsAvg_nonneg (changes : List ℚ) (period : Nat) :
    (0 : ℚ) ≤ ((changes.map (fun c => if 0 < c then c else 0)).take period).sum /
      (period : ℚ) := by
  apply div_nonneg _ (Nat.cast_nonneg period)
  apply List.sum_nonneg
  intro x hx
  have hx' := List.mem_of_mem_take hx
  rw [List.mem_map] at hx'
  obtain ⟨c, _, rfl⟩ := hx'
  by_cases hc : 0 < c
  · simp only [hc, if_true]; exact le_of_lt hc
  · simp only [hc, if_false]; exact le_refl 0

theorem lossesAvg_nonneg (changes : List ℚ) (period : Nat) :
    (0 : ℚ) ≤ ((changes.map (fun c => if c < 0 then |c| else 0)).take period).sum /
      (period : ℚ) := by
  apply div_nonneg _ (Nat.cast_nonneg period)
  apply List.sum_nonneg
  intro x hx
  have hx' := List.mem_of_mem_take hx
  rw [List.mem_map] at hx'
  obtain ⟨c, _, rfl⟩ := hx'
  by_cases hc : c < 0
  · simp only [hc, if_true]; exact abs_nonneg c
  · simp only [hc, if_false]; exact le_refl 0

/-- C5: every Point emitted by `calculateRSI` has a value in `[0, 100]`,
including the first (unclamped) one, for every positive period. -/
theorem rsi_bounds (data : List Bar) (period : Nat) (hp : 0 < period) :
    ∀ p ∈ calculateRSI data period, 0 ≤ p.value ∧ p.value ≤ 100 := by
  intro p hmem
  unfold calculateRSI at hmem
  by_cases hlen : data.length ≤ period
  · rw [if_pos hlen] at hmem; simp at hmem
  · rw [if_neg hlen] at hmem
    simp only [List.mem_append] at hmem
    rcases hmem with hfirst | hrest
    · cases hd : data[period]? with
      | none => rw [hd] at hfirst; simp at hfirst
      | some d =>
          rw [hd] at hfirst
          simp only [List.mem_singleton] at hfirst
          subst hfirst
          exact rsiRaw_bounds _ _ (gainsAvg_nonneg _ _) (lossesAvg_nonneg _ _)
    · exact calculateRSIGo_bounds period _ _ _ p hrest

theorem calculateCVDForCandle_open (l : List Bar) (prev : ℚ) :
    (calculateCVDForCandle l prev).openCVD = prev := by
  unfold calculateCVDForCandle
  by_cases h : l.isEmpty = true
  · rw [if_pos h]
  · rw [if_neg h]

theorem calculateCVDForCandle_empty (prev : ℚ) :
    calculateCVDForCandle [] prev =
      { openCVD := prev, highCVD := prev, lowCVD := prev, closeCVD := prev } := rfl

theorem calculateCVDGo_spec (a : Int → Int) (oneMin : List Bar) (tf : Int)
    (candles : List Bar) : ∀ (cum : ℚ) (cur : Option Int),
    (calculateCVDGo a oneMin tf cum cur candles).length = candles.length ∧
    (∀ i, i < candles.length →
      windowBars oneMin ((candles.getD i default).time) tf = [] →
        (((calculateCVDGo a oneMin tf cum cur candles).getD i default).high =
          ((calculateCVDGo a oneMin tf cum cur candles).getD i default).open_ ∧
        ((calculateCVDGo a oneMin tf cum cur candles).getD i default).low =
          ((calculateCVDGo a oneMin tf cum cur candles).getD i default).open_ ∧
        ((calculateCVDGo a oneMin tf cum cur candles).getD i default).close =
          ((calculateCVDGo a oneMin tf cum cur candles).getD i default).open_)) ∧
    (∀ i, i + 1 < candles.length →
      (a ((candles.getD (i + 1) default).time) = a ((candles.getD i default).time) →
        ((calculateCVDGo a oneMin tf cum cur candles).getD (i + 1) default).open_ =
          ((calculateCVDGo a oneMin tf cum cur candles).getD i default).close) ∧
      (a ((candles.getD (i + 1) default).time) ≠ a ((candles.getD i default).time) →
        ((calculateCVDGo a oneMin tf cum cur candles).getD (i + 1) default).open_ = 0)) := by
  induction candles with
  | nil =>
      intro cum cur
      refine ⟨rfl, ?_, ?_⟩
      · intro i hi; exact absurd hi (by simp)
      · intro i hi; exact absurd hi (by simp)
  | cons c rest ih =>
      intro cum cur
      refine ⟨?_, ?_, ?_⟩
      · simp only [calculateCVDGo, List.length_cons, (ih _ _).1]
      · intro i hi hw
        cases i with
        | zero =>
            simp only [List.getD_cons_zero] at hw
            simp only [calculateCVDGo, List.getD_cons_zero, hw,
              calculateCVDForCandle_empty]
            exact ⟨trivial, trivial, trivial⟩
        | succ i' =>
            simp only [List.getD_cons_succ] at hw
            simp only [List.length_cons] at hi
            simp only [calculateCVDGo, List.getD_cons_succ]
            exact (ih _ _).2.1 i' (by omega) hw
      · intro i hi
        cases i with
        | zero =>
            cases rest with
            | nil => simp at hi
            | cons c' rest' =>
                simp only [List.getD_cons_succ, List.getD_cons_zero]
                constructor
                · intro heq
                  simp only [calculateCVDGo, List.getD_cons_succ, List.getD_cons_zero,
                    calculateCVDForCandle_open, heq]
                  simp
                · intro hne
                  simp only [calculateCVDGo, List.getD_cons_succ, List.getD_cons_zero,
                    calculateCVDForCandle_open]
                  have : ¬ (some (a c.time) = some (a c'.time)) := by
                    intro hcon
                    exact hne (Option.some.inj hcon).symm
                  rw [if_neg this]
        | succ i' =>
            simp only [List.getD_cons_succ]
            simp only [List.length_cons] at hi
            exact (ih _ _).2.2 i' (by omega)

/-- C4: CVD continuity — consecutive candles in the same anchor period chain
`open = previous close`; an anchor change resets the open to `0`; and a candle
whose window contains no 1-minute bars is flat at the inherited opening CVD. -/
theorem cvd_continuity (candles oneMinCandles : List Bar) (anchorStartOf : Int → Int)
    (resolution : Int) :
    (calculateCVD candles oneMinCandles anchorStartOf resolution).length =
      candles.length ∧
    (∀ i, i + 1 < candles.length →
      (anchorStartOf ((candles.getD (i + 1) default).time) =
          anchorStartOf ((candles.getD i default).time) →
        ((calculateCVD candles oneMinCandles anchorStartOf resolution).getD (i + 1)
            default).open_ =
          ((calculateCVD candles oneMinCandles anchorStartOf resolution).getD i
            default).close) ∧
      (anchorStartOf ((candles.getD (i + 1) default).time) ≠
          anchorStartOf ((candles.getD i default).time) →
        ((calculateCVD candles oneMinCandles anchorStartOf resolution).getD (i + 1)
            default).open_ = 0)) ∧
    (∀ i, i < candles.length →
      windowBars oneMinCandles ((candles.getD i default).time) (resolution * 60) = [] →
        (((calculateCVD candles oneMinCandles anchorStartOf resolution).getD i
            default).high =
          ((calculateCVD candles oneMinCandles anchorStartOf resolution).getD i
            default).open_ ∧
        ((calculateCVD candles oneMinCandles anchorStartOf resolution).getD i
            default).low =
          ((calculateCVD candles oneMinCandles anchorStartOf resolution).getD i
            default).open_ ∧
        ((calculateCVD candles oneMinCandles anchorStartOf resolution).getD i
            default).close =
          ((calculateCVD candles oneMinCandles anchorStartOf resolution).getD i
            default).open_)) := by
  obtain ⟨h1, h2, h3⟩ := calculateCVDGo_spec anchorStartOf oneMinCandles
    (resolution * 60) candles 0 none
  exact ⟨h1, h3, h2⟩

/-- Witness for C4: two candles in different anchor periods (`id` as the
anchor-start map) — the second candle's CVD open resets to `0`. -/
theorem cvd_continuity_witness :
    ((calculateCVD
      [{ time := 0, open_ := 1, high := 2, low := 1, close := 2, volume := 3 },
       { time := 300, open_ := 2, high := 3, low := 2, close := 3, volume := 4 }]
      [] id 5).getD 1 default).open_ = 0 :=
  ((cvd_continuity
    [{ time := 0, open_ := 1, high := 2, low := 1, close := 2, volume := 3 },
     { time := 300, open_ := 2, high := 3, low := 2, close := 3, volume := 4 }]
    [] id 5).2.1 0 (by decide)).2 (by decide)

/-- Witness for C5: a two-bar series with period 1. -/
theorem rsi_bounds_witness :
    0 < 1 ∧ ∀ p ∈ calculateRSI
      [{ time := 0, open_ := 1, high := 3, low := 1, close := 2, volume := 1 },
       { time := 60, open_ := 2, high := 4, low := 2, close := 3, volume := 1 }] 1,
      0 ≤ p.value ∧ p.value ≤ 100 :=
  ⟨by decide, rsi_bounds _ 1 (by decide)⟩

theorem chooseVACandidate_true_eq {rows : List ProfileRow} {pocIndex aboveIndex : Int}
    {belowIndex : Nat} {r : ProfileRow}
    (h : chooseVACandidate rows pocIndex aboveIndex belowIndex = some (r, true)) :
    0 ≤ aboveIndex ∧ rows[aboveIndex.toNat]? = some r := by
  unfold chooseVACandidate at h
  by_cases h0 : 0 ≤ aboveIndex
  · simp only [h0, if_true] at h
    cases har : rows[aboveIndex.toNat]? with
    | none =>
        rw [har] at h
        by_cases hb0 : belowIndex < rows.length
        · simp only [hb0, if_true] at h
          cases hbr : rows[belowIndex]? with
          | none => rw [hbr] at h; simp at h
          | some b => rw [hbr] at h; simp at h
        · simp only [hb0, if_false] at h
          simp at h
    | some a =>
        rw [har] at h
        by_cases hb0 : belowIndex < rows.length
        · simp only [hb0, if_true] at h
          cases hbr : rows[belowIndex]? with
          | none =>
              simp only [hbr, Option.some.injEq, Prod.mk.injEq] at h
              exact ⟨h0, by rw [h.1]⟩
          | some b =>
              rw [hbr] at h
              by_cases hv1 : b.totalVolume < a.totalVolume
              · simp only [hv1, if_true, Option.some.injEq, Prod.mk.injEq] at h
                exact ⟨h0, by rw [h.1]⟩
              · simp only [hv1, if_false] at h
                by_cases hv2 : a.totalVolume < b.totalVolume
                · simp only [hv2, if_true] at h
                  simp at h
                · simp only [hv2, if_false] at h
                  by_cases hd1 : pocIndex - aboveIndex < (belowIndex : Int) - pocIndex
                  · simp only [hd1, if_true, Option.some.injEq, Prod.mk.injEq] at h
                    exact ⟨h0, by rw [h.1]⟩
                  · simp only [hd1, if_false] at h
                    by_cases hd2 : (belowIndex : Int) - pocIndex < pocIndex - aboveIndex
                    · simp only [hd2, if_true] at h
                      simp at h
                    · simp only [hd2, if_false, Option.some.injEq,
                        Prod.mk.injEq] at h
                      exact ⟨h0, by rw [h.1]⟩
        · simp only [hb0, if_false] at h
          simp only [Option.some.injEq, Prod.mk.injEq] at h
          exact ⟨h0, by rw [h.1]⟩
  · simp only [h0, if_false] at h
    by_cases hb0 : belowIndex < rows.length
    · simp only [hb0, if_true] at h
      cases hbr : rows[belowIndex]? with
      | none => rw [hbr] at h; simp at h
      | some b => rw [hbr] at h; simp at h
    · simp only [hb0, if_false] at h
      simp at h

theorem chooseVACandidate_false_eq {rows : List ProfileRow} {pocIndex aboveIndex : Int}
    {belowIndex : Nat} {r : ProfileRow}
    (h : chooseVACandidate rows pocIndex aboveIndex belowIndex = some (r, false)) :
    belowIndex < rows.length ∧ rows[belowIndex]? = some r := by
  unfold chooseVACandidate at h
  by_cases hb0 : belowIndex < rows.length
  · simp only [hb0, if_true] at h
    cases hbr : rows[belowIndex]? with
    | none =>
        rw [hbr] at h
        by_cases h0 : 0 ≤ aboveIndex
        · simp only [h0, if_true] at h
          cases har : rows[aboveIndex.toNat]? with
          | none => rw [har] at h; simp at h
          | some a => rw [har] at h; simp at h
        · simp only [h0, if_false] at h
          simp at h
    | some b =>
        rw [hbr] at h
        by_cases h0 : 0 ≤ aboveIndex
        · simp only [h0, if_true] at h
          cases har : rows[aboveIndex.toNat]? with
          | none =>
              simp only [har, Option.some.injEq, Prod.mk.injEq] at h
              exact ⟨hb0, by rw [h.1]⟩
          | some a =>
              rw [har] at h
              by_cases hv1 : b.totalVolume < a.totalVolume
              · simp only [hv1, if_true] at h
                simp at h
              · simp only [hv1, if_false] at h
                by_cases hv2 : a.totalVolume < b.totalVolume
                · simp only [hv2, if_true, Option.some.injEq, Prod.mk.injEq] at h
                  exact ⟨hb0, by rw [h.1]⟩
                · simp only [hv2, if_false] at h
                  by_cases hd1 : pocIndex - aboveIndex < (belowIndex : Int) - pocIndex
                  · simp only [hd1, if_true] at h
                    simp at h
                  · simp only [hd1, if_false] at h
                    by_cases hd2 : (belowIndex : Int) - pocIndex < pocIndex - aboveIndex
                    · simp only [hd2, if_true, Option.some.injEq,
                        Prod.mk.injEq] at h
                      exact ⟨hb0, by rw [h.1]⟩
                    · simp only [hd2, if_false] at h
                      simp at h
        · simp only [h0, if_false] at h
          simp only [Option.some.injEq, Prod.mk.injEq] at h
          exact ⟨hb0, by rw [h.1]⟩
  · simp only [hb0, if_false] at h
    by_cases h0 : 0 ≤ aboveIndex
    · simp only [h0, if_true] at h
      cases har : rows[aboveIndex.toNat]? with
      | none => rw [har] at h; simp at h
      | some a => rw [har] at h; simp at h
    · simp only [h0, if_false] at h
      simp at h

theorem vaLoop_eq_stop {rows : List ProfileRow} {pocIndex : Int} {targetVolume : ℚ}
    {accumulated : ℚ} {vaRows : List Nat} {aboveIndex : Int} {belowIndex : Nat}
    (h : ¬ (accumulated < targetVolume ∧ (0 ≤ aboveIndex ∨ belowIndex < rows.length))) :
    vaLoop rows pocIndex targetVolume accumulated vaRows aboveIndex belowIndex =
      (accumulated, vaRows) := by
  rw [vaLoop.eq_def, if_neg h]

theorem vaLoop_eq_none {rows : List ProfileRow} {pocIndex : Int} {targetVolume : ℚ}
    {accumulated : ℚ} {vaRows : List Nat} {aboveIndex : Int} {belowIndex : Nat}
    (hcond : accumulated < targetVolume ∧ (0 ≤ aboveIndex ∨ belowIndex < rows.length))
    (hch : chooseVACandidate rows pocIndex aboveIndex belowIndex = none) :
    vaLoop rows pocIndex targetVolume accumulated vaRows aboveIndex belowIndex =
      (accumulated, vaRows) := by
  rw [vaLoop.eq_def, if_pos hcond]
  split
  · rfl
  · next heq => rw [hch] at heq <;> cases heq
  · next heq => rw [hch] at heq <;> cases heq

theorem vaLoop_eq_overshoot_above {rows : List ProfileRow} {pocIndex : Int}
    {targetVolume : ℚ} {accumulated : ℚ} {vaRows : List Nat} {aboveIndex : Int}
    {belowIndex : Nat} {r : ProfileRow}
    (hcond : accumulated < targetVolume ∧ (0 ≤ aboveIndex ∨ belowIndex < rows.length))
    (hch : chooseVACandidate rows pocIndex aboveIndex belowIndex = some (r, true))
    (hov : targetVolume < accumulated + r.totalVolume) :
    vaLoop rows pocIndex targetVolume accumulated vaRows aboveIndex belowIndex =
      (accumulated, vaRows) := by
  rw [vaLoop.eq_def, if_pos hcond]
  split
  · next heq => rw [hch] at heq <;> cases heq
  · next row heq =>
      rw [hch] at heq
      obtain ⟨rfl, -⟩ : row = r ∧ True := by
        cases heq; exact ⟨rfl, trivial⟩
      rw [if_pos hov]
  · next row heq => rw [hch] at heq <;> cases heq

theorem vaLoop_eq_step_above {rows : List ProfileRow} {pocIndex : Int}
    {targetVolume : ℚ} {accumulated : ℚ} {vaRows : List Nat} {aboveIndex : Int}
    {belowIndex : Nat} {r : ProfileRow}
    (hcond : accumulated < targetVolume ∧ (0 ≤ aboveIndex ∨ belowIndex < rows.length))
    (hch : chooseVACandidate rows pocIndex aboveIndex belowIndex = some (r, true))
    (hov : ¬ targetVolume < accumulated + r.totalVolume) :
    vaLoop rows pocIndex targetVolume accumulated vaRows aboveIndex belowIndex =
      vaLoop rows pocIndex targetVolume (accumulated + r.totalVolume)
        (setAdd vaRows r.index) (aboveIndex - 1) belowIndex := by
  rw [vaLoop.eq_def, if_pos hcond]
  split
  · next heq => rw [hch] at heq <;> cases heq
  · next row heq =>
      rw [hch] at heq
      obtain ⟨rfl, -⟩ : row = r ∧ True := by
        cases heq; exact ⟨rfl, trivial⟩
      rw [if_neg hov]
  · next row heq => rw [hch] at heq <;> cases heq

theorem vaLoop_eq_overshoot_below {rows : List ProfileRow} {pocIndex : Int}
    {targetVolume : ℚ} {accumulated : ℚ} {vaRows : List Nat} {aboveIndex : Int}
    {belowIndex : Nat} {r : ProfileRow}
    (hcond : accumulated < targetVolume ∧ (0 ≤ aboveIndex ∨ belowIndex < rows.length))
    (hch : chooseVACandidate rows pocIndex aboveIndex belowIndex = some (r, false))
    (hov : targetVolume < accumulated + r.totalVolume) :
    vaLoop rows pocIndex targetVolume accumulated vaRows aboveIndex belowIndex =
      (accumulated, vaRows) := by
  rw [vaLoop.eq_def, if_pos hcond]
  split
  · next heq => rw [hch] at heq <;> cases heq
  · next row heq => rw [hch] at heq <;> cases heq
  · next row heq =>
      rw [hch] at heq
      obtain ⟨rfl, -⟩ : row = r ∧ True := by
        cases heq; exact ⟨rfl, trivial⟩
      rw [if_pos hov]

theorem vaLoop_eq_step_below {rows : List ProfileRow} {pocIndex : Int}
    {targetVolume : ℚ} {accumulated : ℚ} {vaRows : List Nat} {aboveIndex : Int}
    {belowIndex : Nat} {r : ProfileRow}
    (hcond : accumulated < targetVolume ∧ (0 ≤ aboveIndex ∨ belowIndex < rows.length))
    (hch : chooseVACandidate rows pocIndex aboveIndex belowIndex = some (r, false))
    (hov : ¬ targetVolume < accumulated + r.totalVolume) :
    vaLoop rows pocIndex targetVolume accumulated vaRows aboveIndex belowIndex =
      vaLoop rows pocIndex targetVolume (accumulated + r.totalVolume)
        (setAdd vaRows r.index) aboveIndex (belowIndex + 1) := by
  rw [vaLoop.eq_def, if_pos hcond]
  split
  · next heq => rw [hch] at heq <;> cases heq
  · next row heq => rw [hch] at heq <;> cases heq
  · next row heq =>
      rw [hch] at heq
      obtain ⟨rfl, -⟩ : row = r ∧ True := by
        cases heq; exact ⟨rfl, trivial⟩
      rw [if_neg hov]

theorem wellIndexed_getElem? {rows : List ProfileRow} (hIdx : wellIndexed rows)
    {i : Nat} {r : ProfileRow} (h : rows[i]? = some r) :
    r.index = i ∧ i < rows.length := by
  rw [List.getElem?_eq_some] at h
  obtain ⟨hi, hr⟩ := h
  subst hr
  exact ⟨hIdx i hi, hi⟩

theorem getD_of_getElem? {l : List ProfileRow} {i : Nat} {r : ProfileRow}
    (h : l[i]? = some r) (d : ProfileRow) : l.getD i d = r := by
  rw [List.getD_eq_getElem?_getD, h]
  rfl

theorem setAdd_not_mem {l : List Nat} {x : Nat} (h : x ∉ l) : setAdd l x = l ++ [x] := by
  unfold setAdd
  rw [if_neg h]

theorem vaRowsVolume_append (rows : List ProfileRow) (dflt : ProfileRow)
    (l : List Nat) (idx : Nat) :
    vaRowsVolume rows dflt (l ++ [idx]) =
      vaRowsVolume rows dflt l + (rows.getD idx dflt).totalVolume := by
  unfold vaRowsVolume
  rw [List.map_append, List.sum_append]
  simp

theorem vaLoop_spec (rows : List ProfileRow) (pocIndex : Int) (targetVolume : ℚ)
    (dflt : ProfileRow) (hIdx : wellIndexed rows)
    (accumulated : ℚ) (vaRows : List Nat) (aboveIndex : Int) (belowIndex : Nat) :
    -1 ≤ aboveIndex → aboveIndex < pocIndex → pocIndex < (belowIndex : Int) →
    belowIndex ≤ rows.length →
    (∀ n : Nat, n ∈ vaRows ↔ aboveIndex < (n : Int) ∧ (n : Int) < (belowIndex : Int)) →
    accumulated = vaRowsVolume rows dflt vaRows →
    ∃ (above' : Int) (below' : Nat),
      -1 ≤ above' ∧ above' ≤ aboveIndex ∧ above' < pocIndex ∧
      pocIndex < (below' : Int) ∧ belowIndex ≤ below' ∧ below' ≤ rows.length ∧
      (∀ n : Nat,
        n ∈ (vaLoop rows pocIndex targetVolume accumulated vaRows aboveIndex
          belowIndex).2 ↔ above' < (n : Int) ∧ (n : Int) < (below' : Int)) ∧
      (vaLoop rows pocIndex targetVolume accumulated vaRows aboveIndex belowIndex).1 =
        vaRowsVolume rows dflt
          (vaLoop rows pocIndex targetVolume accumulated vaRows aboveIndex
            belowIndex).2 ∧
      (vaLoop rows pocIndex targetVolume accumulated vaRows aboveIndex belowIndex).1 ≤
        max accumulated targetVolume := by
  induction accumulated, vaRows, aboveIndex, belowIndex
    using vaLoop.induct rows pocIndex targetVolume with
  | case1 accumulated vaRows aboveIndex belowIndex hcond hch =>
      intro h1 h2 h3 h4 h5 h6
      rw [vaLoop_eq_none hcond hch]
      exact ⟨aboveIndex, belowIndex, h1, le_refl _, h2, h3, le_refl _, h4, h5, h6,
        le_max_left _ _⟩
  | case2 accumulated vaRows aboveIndex belowIndex hcond r hch hov =>
      intro h1 h2 h3 h4 h5 h6
      rw [vaLoop_eq_overshoot_above hcond hch hov]
      exact ⟨aboveIndex, belowIndex, h1, le_refl _, h2, h3, le_refl _, h4, h5, h6,
        le_max_left _ _⟩
  | case3 accumulated vaRows aboveIndex belowIndex hcond r hch hov ih =>
      intro h1 h2 h3 h4 h5 h6
      obtain ⟨hab0, hget⟩ := chooseVACandidate_true_eq hch
      obtain ⟨hridx, hltrow⟩ := wellIndexed_getElem? hIdx hget
      have hrow : (r.index : Int) = aboveIndex := by
        rw [hridx]; omega
      have hnotmem : r.index ∉ vaRows := by
        intro hmem
        have := (h5 r.index).mp hmem
        omega
      have hsetAdd : setAdd vaRows r.index = vaRows ++ [r.index] :=
        setAdd_not_mem hnotmem
      have hsum : accumulated + r.totalVolume =
          vaRowsVolume rows dflt (setAdd vaRows r.index) := by
        rw [hsetAdd, vaRowsVolume_append, hridx, getD_of_getElem? hget, h6]
      have hmem' : ∀ n : Nat, n ∈ setAdd vaRows r.index ↔
          aboveIndex - 1 < (n : Int) ∧ (n : Int) < (belowIndex : Int) := by
        intro n
        rw [hsetAdd, List.mem_append, List.mem_singleton, h5 n]
        constructor
        · rintro (⟨ha, hb⟩ | rfl)
          · exact ⟨by omega, hb⟩
          · exact ⟨by omega, by omega⟩
        · rintro ⟨ha, hb⟩
          by_cases hn : (n : Int) = aboveIndex
          · right; omega
          · left; exact ⟨by omega, hb⟩
      rw [vaLoop_eq_step_above hcond hch hov]
      obtain ⟨above', below', p1, p2, p3, p4, p5, p6, p7, p8, p9⟩ :=
        ih (by omega) (by omega) h3 h4 hmem' hsum
      refine ⟨above', below', p1, by omega, p3, p4, p5, p6, p7, p8, ?_⟩
      have hle : accumulated + r.totalVolume ≤ targetVolume := not_lt.mp hov
      calc (vaLoop rows pocIndex targetVolume (accumulated + r.totalVolume)
            (setAdd vaRows r.index) (aboveIndex - 1) belowIndex).1 ≤
          max (accumulated + r.totalVolume) targetVolume := p9
        _ = targetVolume := max_eq_right hle
        _ ≤ max accumulated targetVolume := le_max_right _ _
  | case4 accumulated vaRows aboveIndex belowIndex hcond r hch hov =>
      intro h1 h2 h3 h4 h5 h6
      rw [vaLoop_eq_overshoot_below hcond hch hov]
      exact ⟨aboveIndex, belowIndex, h1, le_refl _, h2, h3, le_refl _, h4, h5, h6,
        le_max_left _ _⟩
  | case5 accumulated vaRows aboveIndex belowIndex hcond r hch hov ih =>
      intro h1 h2 h3 h4 h5 h6
      obtain ⟨hbl, hget⟩ := chooseVACandidate_false_eq hch
      obtain ⟨hridx, hltrow⟩ := wellIndexed_getElem? hIdx hget
      have hnotmem : r.index ∉ vaRows := by
        intro hmem
        have := (h5 r.index).mp hmem
        omega
      have hsetAdd : setAdd vaRows r.index = vaRows ++ [r.index] :=
        setAdd_not_mem hnotmem
      have hsum : accumulated + r.totalVolume =
          vaRowsVolume rows dflt (setAdd vaRows r.index) := by
        rw [hsetAdd, vaRowsVolume_append, hridx, getD_of_getElem? hget, h6]
      have hmem' : ∀ n : Nat, n ∈ setAdd vaRows r.index ↔
          aboveIndex < (n : Int) ∧ (n : Int) < ((belowIndex + 1 : Nat) : Int) := by
        intro n
        rw [hsetAdd, List.mem_append, List.mem_singleton, h5 n]
        constructor
        · rintro (⟨ha, hb⟩ | rfl)
          · exact ⟨ha, by omega⟩
          · exact ⟨by omega, by omega⟩
        · rintro ⟨ha, hb⟩
          by_cases hn : n = belowIndex
          · right; omega
          · left; exact ⟨ha, by omega⟩
      rw [vaLoop_eq_step_below hcond hch hov]
      obtain ⟨above', below', p1, p2, p3, p4, p5, p6, p7, p8, p9⟩ :=
        ih h1 h2 (by omega) (by omega) hmem' hsum
      refine ⟨above', below', p1, p2, p3, p4, by omega, p6, p7, p8, ?_⟩
      have hle : accumulated + r.totalVolume ≤ targetVolume := not_lt.mp hov
      calc (vaLoop rows pocIndex targetVolume (accumulated + r.totalVolume)
            (setAdd vaRows r.index) aboveIndex (belowIndex + 1)).1 ≤
          max (accumulated + r.totalVolume) targetVolume := p9
        _ = targetVolume := max_eq_right hle
        _ ≤ max accumulated targetVolume := le_max_right _ _
  | case6 accumulated vaRows aboveIndex belowIndex hcond =>
      intro h1 h2 h3 h4 h5 h6
      rw [vaLoop_eq_stop hcond]
      exact ⟨aboveIndex, belowIndex, h1, le_refl _, h2, h3, le_refl _, h4, h5, h6,
        le_max_left _ _⟩

theorem indexOf_eq_index {rows : List ProfileRow} (hIdx : wellIndexed rows)
    {poc : ProfileRow} (hmem : poc ∈ rows) : rows.indexOf poc = poc.index := by
  have hk : rows.indexOf poc < rows.length := List.indexOf_lt_length.mpr hmem
  have h2 : rows.get ⟨rows.indexOf poc, hk⟩ = poc := List.indexOf_get hk
  have h3 := hIdx (rows.indexOf poc) hk
  rw [h2] at h3
  exact h3.symm

theorem getElem?_of_wellIndexed_mem {rows : List ProfileRow} (hIdx : wellIndexed rows)
    {poc : ProfileRow} (hmem : poc ∈ rows) :
    rows[poc.index]? = some poc ∧ poc.index < rows.length := by
  have hk : rows.indexOf poc < rows.length := List.indexOf_lt_length.mpr hmem
  have h2 : rows.get ⟨rows.indexOf poc, hk⟩ = poc := List.indexOf_get hk
  have hidx := indexOf_eq_index hIdx hmem
  have h4 : rows[rows.indexOf poc]? = some poc := by
    rw [List.getElem?_eq_getElem hk]
    exact congrArg some h2
  rw [hidx] at h4
  exact ⟨h4, hidx ▸ hk⟩

theorem vaRowsVolume_singleton (rows : List ProfileRow) (d : ProfileRow) (idx : Nat) :
    vaRowsVolume rows d [idx] = (rows.getD idx d).totalVolume := by
  unfold vaRowsVolume
  simp

theorem priceCmp_trans : ∀ a b c : ProfileRow,
    (fun a b => decide (b.priceLevel ≤ a.priceLevel)) a b = true →
    (fun a b => decide (b.priceLevel ≤ a.priceLevel)) b c = true →
    (fun a b => decide (b.priceLevel ≤ a.priceLevel)) a c = true := by
  intro a b c hab hbc
  simp only [decide_eq_true_eq] at *
  exact le_trans hbc hab

theorem priceCmp_total : ∀ a b : ProfileRow,
    ((fun a b => decide (b.priceLevel ≤ a.priceLevel)) a b ||
      (fun a b => decide (b.priceLevel ≤ a.priceLevel)) b a) = true := by
  intro a b
  simp only [Bool.or_eq_true, decide_eq_true_eq]
  exact le_total _ _

theorem pairwise_headD_ge (l : List ProfileRow) (d : ProfileRow)
    (hp : List.Pairwise (fun a b => decide (b.priceLevel ≤ a.priceLevel) = true) l) :
    ∀ x ∈ l, x.priceLevel ≤ (l.headD d).priceLevel := by
  cases l with
  | nil => intro x hx; simp at hx
  | cons a t =>
      intro x hx
      rw [List.headD_cons]
      rcases List.mem_cons.mp hx with rfl | hx'
      · exact le_refl _
      · have := (List.pairwise_cons.mp hp).1 x hx'
        simpa using this

theorem pairwise_getLastD_le (l : List ProfileRow) (d : ProfileRow)
    (hp : List.Pairwise (fun a b => decide (b.priceLevel ≤ a.priceLevel) = true) l) :
    ∀ x ∈ l, (l.getLastD d).priceLevel ≤ x.priceLevel := by
  induction l generalizing d with
  | nil => intro x hx; simp at hx
  | cons a t ih =>
      intro x hx
      rw [List.getLastD_cons]
      rcases List.mem_cons.mp hx with heq | hx'
      · subst heq
        cases t with
        | nil => exact le_refl _
        | cons b t' =>
            have hmem := List.getLastD_mem_cons (b :: t') x
            rcases List.mem_cons.mp hmem with heq2 | hin
            · rw [heq2]
            · have := (List.pairwise_cons.mp hp).1 _ hin
              simpa using this
      · exact ih a (List.pairwise_cons.mp hp).2 x hx'

theorem calculateValueArea_eq_zero {rows : List ProfileRow} {poc : ProfileRow}
    {vaPercentage : ℚ} (h0 : totalVolumeOf rows = 0) :
    calculateValueArea rows poc vaPercentage =
      { vah := poc, val := poc, valueAreaRows := [poc.index] } := by
  simp only [calculateValueArea]
  rw [if_pos h0]

theorem calculateValueArea_eq_pos {rows : List ProfileRow} {poc : ProfileRow}
    {vaPercentage : ℚ} (h0 : ¬ totalVolumeOf rows = 0) (hmem : poc ∈ rows) :
    calculateValueArea rows poc vaPercentage =
      { vah := (((vaLoop rows (rows.indexOf poc : Int)
            (totalVolumeOf rows * (vaPercentage / 100)) poc.totalVolume [poc.index]
            ((rows.indexOf poc : Int) - 1) ((rows.indexOf poc : Int) + 1).toNat).2.map
              (fun idx => rows.getD idx poc)).mergeSort
                (fun a b => decide (b.priceLevel ≤ a.priceLevel))).headD poc
        val := (((vaLoop rows (rows.indexOf poc : Int)
            (totalVolumeOf rows * (vaPercentage / 100)) poc.totalVolume [poc.index]
            ((rows.indexOf poc : Int) - 1) ((rows.indexOf poc : Int) + 1).toNat).2.map
              (fun idx => rows.getD idx poc)).mergeSort
                (fun a b => decide (b.priceLevel ≤ a.priceLevel))).getLastD poc
        valueAreaRows := (vaLoop rows (rows.indexOf poc : Int)
            (totalVolumeOf rows * (vaPercentage / 100)) poc.totalVolume [poc.index]
            ((rows.indexOf poc : Int) - 1) ((rows.indexOf poc : Int) + 1).toNat).2 } := by
  simp only [calculateValueArea]
  rw [if_neg h0, if_pos hmem]

/-- The combined behaviour of `calculateValueArea` on a well-indexed row list
with a POC drawn from it: the value-area indices form a contiguous interval
`[lo, hi]` containing the POC; the accumulated value-area volume is bounded by
`max (poc volume) target` and by `target` itself whenever the POC alone does
not already exceed it; and `vah`/`val` are value-area rows of maximal/minimal
`priceLevel` (in particular `val.priceLevel ≤ vah.priceLevel`). -/
theorem calculateValueArea_spec (rows : List ProfileRow) (poc : ProfileRow)
    (vaPercentage : ℚ) (hIdx : wellIndexed rows) (hmem : poc ∈ rows) :
    ∃ lo hi : Nat, lo ≤ poc.index ∧ poc.index ≤ hi ∧ hi < rows.length ∧
      (∀ n : Nat, n ∈ (calculateValueArea rows poc vaPercentage).valueAreaRows ↔
        lo ≤ n ∧ n ≤ hi) ∧
      vaRowsVolume rows poc (calculateValueArea rows poc vaPercentage).valueAreaRows ≤
        max poc.totalVolume (totalVolumeOf rows * (vaPercentage / 100)) ∧
      (poc.totalVolume ≤ totalVolumeOf rows * (vaPercentage / 100) →
        vaRowsVolume rows poc
            (calculateValueArea rows poc vaPercentage).valueAreaRows ≤
          totalVolumeOf rows * (vaPercentage / 100)) ∧
      (calculateValueArea rows poc vaPercentage).vah ∈
        (calculateValueArea rows poc vaPercentage).valueAreaRows.map
          (fun idx => rows.getD idx poc) ∧
      (calculateValueArea rows poc vaPercentage).val ∈
        (calculateValueArea rows poc vaPercentage).valueAreaRows.map
          (fun idx => rows.getD idx poc) ∧
      (∀ x ∈ (calculateValueArea rows poc vaPercentage).valueAreaRows.map
          (fun idx => rows.getD idx poc),
        x.priceLevel ≤ (calculateValueArea rows poc vaPercentage).vah.priceLevel) ∧
      (∀ x ∈ (calculateValueArea rows poc vaPercentage).valueAreaRows.map
          (fun idx => rows.getD idx poc),
        (calculateValueArea rows poc vaPercentage).val.priceLevel ≤ x.priceLevel) := by
  obtain ⟨hpocget, hpoclt⟩ := getElem?_of_wellIndexed_mem hIdx hmem
  by_cases h0 : totalVolumeOf rows = 0
  · rw [calculateValueArea_eq_zero h0]
    refine ⟨poc.index, poc.index, le_refl _, le_refl _, hpoclt, ?_, ?_, ?_, ?_, ?_, ?_, ?_⟩
    · intro n; simp; omega
    · rw [vaRowsVolume_singleton, getD_of_getElem? hpocget]
      exact le_max_left _ _
    · intro h
      rw [vaRowsVolume_singleton, getD_of_getElem? hpocget]
      exact h
    · simp only [List.map_cons, List.map_nil, List.mem_singleton]
      exact (getD_of_getElem? hpocget poc).symm
    · simp only [List.map_cons, List.map_nil, List.mem_singleton]
      exact (getD_of_getElem? hpocget poc).symm
    · intro x hx
      simp only [List.map_cons, List.map_nil, List.mem_singleton] at hx
      rw [hx, getD_of_getElem? hpocget poc]
    · intro x hx
      simp only [List.map_cons, List.map_nil, List.mem_singleton] at hx
      rw [hx, getD_of_getElem? hpocget poc]
  · have hidx := indexOf_eq_index hIdx hmem
    rw [calculateValueArea_eq_pos h0 hmem]
    rw [hidx]
    have htoNat : ((poc.index : Int) + 1).toNat = poc.index + 1 := by omega
    rw [htoNat]
    have hinit_mem : ∀ n : Nat, n ∈ [poc.index] ↔
        (poc.index : Int) - 1 < (n : Int) ∧ (n : Int) < ((poc.index + 1 : Nat) : Int) := by
      intro n
      simp only [List.mem_singleton]
      omega
    have hinit_sum : poc.totalVolume = vaRowsVolume rows poc [poc.index] := by
      rw [vaRowsVolume_singleton, getD_of_getElem? hpocget]
    obtain ⟨above', below', p1, p2, p3, p4, p5, p6, p7, p8, p9⟩ :=
      vaLoop_spec rows (poc.index : Int)
        (totalVolumeOf rows * (vaPercentage / 100)) poc hIdx
        poc.totalVolume [poc.index] ((poc.index : Int) - 1) (poc.index + 1)
        (by omega) (by omega) (by omega) (by omega) hinit_mem hinit_sum
    set state := vaLoop rows ((poc.index : Nat) : Int)
      (totalVolumeOf rows * (vaPercentage / 100)) poc.totalVolume [poc.index]
      (((poc.index : Nat) : Int) - 1) (poc.index + 1) with hstate
    set sorted := ((state.2.map (fun idx => rows.getD idx poc)).mergeSort
      (fun a b => decide (b.priceLevel ≤ a.priceLevel))) with hsorted
    have hperm := List.mergeSort_perm (state.2.map (fun idx => rows.getD idx poc))
      (fun a b => decide (b.priceLevel ≤ a.priceLevel))
    have hpair := List.sorted_mergeSort priceCmp_trans priceCmp_total
      (state.2.map (fun idx => rows.getD idx poc))
    rw [← hsorted] at hperm hpair
    have hpocmem : poc.index ∈ state.2 := by
      rw [p7]
      omega
    have hsorted_ne : sorted ≠ [] := by
      intro hnil
      have : poc ∈ state.2.map (fun idx => rows.getD idx poc) := by
        rw [List.mem_map]
        exact ⟨poc.index, hpocmem, getD_of_getElem? hpocget poc⟩
      rw [← hperm.mem_iff, hnil] at this
      simp at this
    have hvah_mem : sorted.headD poc ∈ sorted := by
      cases hs : sorted with
      | nil => exact absurd hs hsorted_ne
      | cons a t => rw [List.headD_cons]; exact List.mem_cons_self a t
    have hval_mem : sorted.getLastD poc ∈ sorted := by
      cases hs : sorted with
      | nil => exact absurd hs hsorted_ne
      | cons a t =>
          rw [List.getLastD_cons]
          exact List.getLastD_mem_cons t a
    refine ⟨(above' + 1).toNat, below' - 1, by omega, by omega, by omega, ?_, ?_, ?_,
      ?_, ?_, ?_, ?_⟩
    · intro n
      simp only []
      rw [p7]
      omega
    · simp only []
      rw [← p8]
      exact p9
    · intro h
      simp only []
      rw [← p8]
      exact le_trans p9 (le_of_eq (max_eq_right h))
    · simp only []
      exact hperm.mem_iff.mp hvah_mem
    · simp only []
      exact hperm.mem_iff.mp hval_mem
    · intro x hx
      simp only []
      exact pairwise_headD_ge sorted poc hpair x (hperm.mem_iff.mpr hx)
    · intro x hx
      simp only []
      exact pairwise_getLastD_le sorted poc hpair x (hperm.mem_iff.mpr hx)

/-- Counterexample to C1 as stated: two rows with volumes `100` and `10`
(total `110`, target `77`); the POC row alone already holds `100 > 77`, so the
accumulated value-area volume (the combined `totalVolume` of the returned
`valueAreaRows`) exceeds the target. -/
theorem value_area_containment_counterexample :
    vaRowsVolume
      [{ index := 0, priceLow := 0, priceHigh := 1, priceLevel := 0, upVolume := 100,
         downVolume := 0, totalVolume := 100, delta := 100 },
       { index := 1, priceLow := 1, priceHigh := 2, priceLevel := 1, upVolume := 10,
         downVolume := 0, totalVolume := 10, delta := 10 }]
      { index := 0, priceLow := 0, priceHigh := 1, priceLevel := 0, upVolume := 100,
        downVolume := 0, totalVolume := 100, delta := 100 }
      (calculateValueArea
        [{ index := 0, priceLow := 0, priceHigh := 1, priceLevel := 0, upVolume := 100,
           downVolume := 0, totalVolume := 100, delta := 100 },
         { index := 1, priceLow := 1, priceHigh := 2, priceLevel := 1, upVolume := 10,
           downVolume := 0, totalVolume := 10, delta := 10 }]
        { index := 0, priceLow := 0, priceHigh := 1, priceLevel := 0, upVolume := 100,
          downVolume := 0, totalVolume := 100, delta := 100 } 70).valueAreaRows = 100 ∧
    totalVolumeOf
      [{ index := 0, priceLow := 0, priceHigh := 1, priceLevel := 0, upVolume := 100,
         downVolume := 0, totalVolume := 100, delta := 100 },
       { index := 1, priceLow := 1, priceHigh := 2, priceLevel := 1, upVolume := 10,
         downVolume := 0, totalVolume := 10, delta := 10 }] * (70 / 100) = 77 ∧
    ¬ (100 : ℚ) ≤ 77 := by
  refine ⟨?_, ?_, ?_⟩
  · with_unfolding_all decide
  · with_unfolding_all decide
  · with_unfolding_all decide

/-- C1 (amended): on a well-indexed row list with POC drawn from it, the
accumulated value-area volume never exceeds `max (POC volume) target` — so the
expansion loop never pushes it past the target, and it is `≤ target` whenever
the initial POC volume does not already exceed the target; the POC's index is
a member of `valueAreaRows`; and the returned VAH's `priceLevel` is at least
the returned VAL's. -/
theorem value_area_containment (rows : List ProfileRow) (poc : ProfileRow)
    (vaPercentage : ℚ) (hIdx : wellIndexed rows) (hmem : poc ∈ rows) :
    poc.index ∈ (calculateValueArea rows poc vaPercentage).valueAreaRows ∧
    vaRowsVolume rows poc (calculateValueArea rows poc vaPercentage).valueAreaRows ≤
      max poc.totalVolume (totalVolumeOf rows * (vaPercentage / 100)) ∧
    (poc.totalVolume ≤ totalVolumeOf rows * (vaPercentage / 100) →
      vaRowsVolume rows poc
          (calculateValueArea rows poc vaPercentage).valueAreaRows ≤
        totalVolumeOf rows * (vaPercentage / 100)) ∧
    (calculateValueArea rows poc vaPercentage).val.priceLevel ≤
      (calculateValueArea rows poc vaPercentage).vah.priceLevel := by
  obtain ⟨lo, hi, q1, q2, q3, q4, q5, q6, q7, q8, q9, q10⟩ :=
    calculateValueArea_spec rows poc vaPercentage hIdx hmem
  exact ⟨(q4 poc.index).mpr ⟨q1, q2⟩, q5, q6, q9 _ q8⟩

/-- Witness for C1 (amended): a three-row profile with volumes `10, 100, 10`
and the POC in the middle. -/
theorem value_area_containment_witness :
    wellIndexed
      [{ index := 0, priceLow := 0, priceHigh := 1, priceLevel := 0, upVolume := 10,
         downVolume := 0, totalVolume := 10, delta := 10 },
       { index := 1, priceLow := 1, priceHigh := 2, priceLevel := 1, upVolume := 100,
         downVolume := 0, totalVolume := 100, delta := 100 },
       { index := 2, priceLow := 2, priceHigh := 3, priceLevel := 2, upVolume := 10,
         downVolume := 0, totalVolume := 10, delta := 10 }] ∧
    ({ index := 1, priceLow := 1, priceHigh := 2, priceLevel := 1, upVolume := 100,
       downVolume := 0, totalVolume := 100, delta := 100 } : ProfileRow) ∈
      [{ index := 0, priceLow := 0, priceHigh := 1, priceLevel := 0, upVolume := 10,
         downVolume := 0, totalVolume := 10, delta := 10 },
       { index := 1, priceLow := 1, priceHigh := 2, priceLevel := 1, upVolume := 100,
         downVolume := 0, totalVolume := 100, delta := 100 },
       { index := 2, priceLow := 2, priceHigh := 3, priceLevel := 2, upVolume := 10,
         downVolume := 0, totalVolume := 10, delta := 10 }] ∧
    (({ index := 1, priceLow := 1, priceHigh := 2, priceLevel := 1, upVolume := 100,
        downVolume := 0, totalVolume := 100, delta := 100 } : ProfileRow).index ∈
      (calculateValueArea
        [{ index := 0, priceLow := 0, priceHigh := 1, priceLevel := 0, upVolume := 10,
           downVolume := 0, totalVolume := 10, delta := 10 },
         { index := 1, priceLow := 1, priceHigh := 2, priceLevel := 1, upVolume := 100,
           downVolume := 0, totalVolume := 100, delta := 100 },
         { index := 2, priceLow := 2, priceHigh := 3, priceLevel := 2, upVolume := 10,
           downVolume := 0, totalVolume := 10, delta := 10 }]
        { index := 1, priceLow := 1, priceHigh := 2, priceLevel := 1, upVolume := 100,
          downVolume := 0, totalVolume := 100, delta := 100 } 70).valueAreaRows ∧
      vaRowsVolume
        [{ index := 0, priceLow := 0, priceHigh := 1, priceLevel := 0, upVolume := 10,
           downVolume := 0, totalVolume := 10, delta := 10 },
         { index := 1, priceLow := 1, priceHigh := 2, priceLevel := 1, upVolume := 100,
           downVolume := 0, totalVolume := 100, delta := 100 },
         { index := 2, priceLow := 2, priceHigh := 3, priceLevel := 2, upVolume := 10,
           downVolume := 0, totalVolume := 10, delta := 10 }]
        { index := 1, priceLow := 1, priceHigh := 2, priceLevel := 1, upVolume := 100,
          downVolume := 0, totalVolume := 100, delta := 100 }
        (calculateValueArea
          [{ index := 0, priceLow := 0, priceHigh := 1, priceLevel := 0, upVolume := 10,
             downVolume := 0, totalVolume := 10, delta := 10 },
           { index := 1, priceLow := 1, priceHigh := 2, priceLevel := 1, upVolume := 100,
             downVolume := 0, totalVolume := 100, delta := 100 },
           { index := 2, priceLow := 2, priceHigh := 3, priceLevel := 2, upVolume := 10,
             downVolume := 0, totalVolume := 10, delta := 10 }]
          { index := 1, priceLow := 1, priceHigh := 2, priceLevel := 1, upVolume := 100,
            downVolume := 0, totalVolume := 100, delta := 100 } 70).valueAreaRows ≤
        max (100 : ℚ) (totalVolumeOf
          [{ index := 0, priceLow := 0, priceHigh := 1, priceLevel := 0, upVolume := 10,
             downVolume := 0, totalVolume := 10, delta := 10 },
           { index := 1, priceLow := 1, priceHigh := 2, priceLevel := 1, upVolume := 100,
             downVolume := 0, totalVolume := 100, delta := 100 },
           { index := 2, priceLow := 2, priceHigh := 3, priceLevel := 2, upVolume := 10,
             downVolume := 0, totalVolume := 10, delta := 10 }] * (70 / 100)) ∧
      (calculateValueArea
        [{ index := 0, priceLow := 0, priceHigh := 1, priceLevel := 0, upVolume := 10,
           downVolume := 0, totalVolume := 10, delta := 10 },
         { index := 1, priceLow := 1, priceHigh := 2, priceLevel := 1, upVolume := 100,
           downVolume := 0, totalVolume := 100, delta := 100 },
         { index := 2, priceLow := 2, priceHigh := 3, priceLevel := 2, upVolume := 10,
           downVolume := 0, totalVolume := 10, delta := 10 }]
        { index := 1, priceLow := 1, priceHigh := 2, priceLevel := 1, upVolume := 100,
          downVolume := 0, totalVolume := 100, delta := 100 } 70).val.priceLevel ≤
      (calculateValueArea
        [{ index := 0, priceLow := 0, priceHigh := 1, priceLevel := 0, upVolume := 10,
           downVolume := 0, totalVolume := 10, delta := 10 },
         { index := 1, priceLow := 1, priceHigh := 2, priceLevel := 1, upVolume := 100,
           downVolume := 0, totalVolume := 100, delta := 100 },
         { index := 2, priceLow := 2, priceHigh := 3, priceLevel := 2, upVolume := 10,
           downVolume := 0, totalVolume := 10, delta := 10 }]
        { index := 1, priceLow := 1, priceHigh := 2, priceLevel := 1, upVolume := 100,
          downVolume := 0, totalVolume := 100, delta := 100 } 70).vah.priceLevel) :=
  ⟨by with_unfolding_all decide, by with_unfolding_all decide,
   (value_area_containment _ _ 70 (by with_unfolding_all decide)
      (by with_unfolding_all decide)).1,
   (value_area_containment _ _ 70 (by with_unfolding_all decide)
      (by with_unfolding_all decide)).2.1,
   (value_area_containment _ _ 70 (by with_unfolding_all decide)
      (by with_unfolding_all decide)).2.2.2⟩

theorem getD_lt_length (l : List ProfileRow) (d : ProfileRow) {i : Nat}
    (h : i < l.length) : l.getD i d = l.get ⟨i, h⟩ := by
  rw [List.getD_eq_getElem?_getD, List.getElem?_eq_getElem h]
  rfl

/-- C10: on a well-indexed row list whose `priceLevel` is strictly increasing
in the index, with a POC drawn from it, the returned `valueAreaRows` is a
contiguous index interval `[lo, hi]` containing the POC's index, and the
returned VAH and VAL are exactly the rows at the interval's upper and lower
edge. -/
theorem value_area_contiguous (rows : List ProfileRow) (poc : ProfileRow)
    (vaPercentage : ℚ) (hIdx : wellIndexed rows) (hmem : poc ∈ rows)
    (hmono : ∀ i, ∀ hi : i < rows.length, ∀ j, ∀ hj : j < rows.length, i < j →
      (rows.get ⟨i, hi⟩).priceLevel < (rows.get ⟨j, hj⟩).priceLevel) :
    ∃ lo hi : Nat, lo ≤ poc.index ∧ poc.index ≤ hi ∧ hi < rows.length ∧
      (∀ n : Nat, n ∈ (calculateValueArea rows poc vaPercentage).valueAreaRows ↔
        lo ≤ n ∧ n ≤ hi) ∧
      (calculateValueArea rows poc vaPercentage).vah = rows.getD hi poc ∧
      (calculateValueArea rows poc vaPercentage).val = rows.getD lo poc := by
  obtain ⟨lo, hi, q1, q2, q3, q4, q5, q6, q7, q8, q9, q10⟩ :=
    calculateValueArea_spec rows poc vaPercentage hIdx hmem
  have hlolt : lo < rows.length := by omega
  have hhimem : hi ∈ (calculateValueArea rows poc vaPercentage).valueAreaRows :=
    (q4 hi).mpr ⟨by omega, le_refl hi⟩
  have hlomem : lo ∈ (calculateValueArea rows poc vaPercentage).valueAreaRows :=
    (q4 lo).mpr ⟨le_refl lo, by omega⟩
  refine ⟨lo, hi, q1, q2, q3, q4, ?_, ?_⟩
  · obtain ⟨idx0, hidx0mem, hidx0⟩ := List.mem_map.mp q7
    have hidx0le : idx0 ≤ hi := ((q4 idx0).mp hidx0mem).2
    have hidx0lt : idx0 < rows.length := by omega
    have hge : (rows.getD hi poc).priceLevel ≤
        (calculateValueArea rows poc vaPercentage).vah.priceLevel := by
      apply q9
      exact List.mem_map.mpr ⟨hi, hhimem, rfl⟩
    by_cases hcases : idx0 = hi
    · rw [← hidx0, hcases]
    · exfalso
      have hlt : idx0 < hi := by omega
      have := hmono idx0 hidx0lt hi q3 hlt
      rw [← getD_lt_length rows poc hidx0lt, ← getD_lt_length rows poc q3] at this
      rw [← hidx0] at hge
      rw [getD_lt_length rows poc hidx0lt, getD_lt_length rows poc q3] at hge this
      exact absurd hge (not_le.mpr this)
  · obtain ⟨idx0, hidx0mem, hidx0⟩ := List.mem_map.mp q8
    have hidx0ge : lo ≤ idx0 := ((q4 idx0).mp hidx0mem).1
    have hidx0lt : idx0 < rows.length := by
      have := ((q4 idx0).mp hidx0mem).2
      omega
    have hle : (calculateValueArea rows poc vaPercentage).val.priceLevel ≤
        (rows.getD lo poc).priceLevel := by
      apply q10
      exact List.mem_map.mpr ⟨lo, hlomem, rfl⟩
    by_cases hcases : idx0 = lo
    · rw [← hidx0, hcases]
    · exfalso
      have hlt : lo < idx0 := by omega
      have := hmono lo hlolt idx0 hidx0lt hlt
      rw [← hidx0] at hle
      rw [getD_lt_length rows poc hlolt] at hle
      rw [getD_lt_length rows poc hidx0lt] at hle
      exact absurd hle (not_le.mpr this)

/-- Witness for C10: the three-row profile of the C1 witness, price-monotone
by construction. -/
theorem value_area_contiguous_witness :
    ∃ lo hi : Nat, lo ≤ 1 ∧ 1 ≤ hi ∧ hi < 3 ∧
      (∀ n : Nat, n ∈ (calculateValueArea
        [{ index := 0, priceLow := 0, priceHigh := 1, priceLevel := 0, upVolume := 20,
           downVolume := 0, totalVolume := 20, delta := 20 },
         { index := 1, priceLow := 1, priceHigh := 2, priceLevel := 1, upVolume := 30,
           downVolume := 0, totalVolume := 30, delta := 30 },
         { index := 2, priceLow := 2, priceHigh := 3, priceLevel := 2, upVolume := 10,
           downVolume := 0, totalVolume := 10, delta := 10 }]
        { index := 1, priceLow := 1, priceHigh := 2, priceLevel := 1, upVolume := 30,
          downVolume := 0, totalVolume := 30, delta := 30 } 70).valueAreaRows ↔
        lo ≤ n ∧ n ≤ hi) ∧
      (calculateValueArea
        [{ index := 0, priceLow := 0, priceHigh := 1, priceLevel := 0, upVolume := 20,
           downVolume := 0, totalVolume := 20, delta := 20 },
         { index := 1, priceLow := 1, priceHigh := 2, priceLevel := 1, upVolume := 30,
           downVolume := 0, totalVolume := 30, delta := 30 },
         { index := 2, priceLow := 2, priceHigh := 3, priceLevel := 2, upVolume := 10,
           downVolume := 0, totalVolume := 10, delta := 10 }]
        { index := 1, priceLow := 1, priceHigh := 2, priceLevel := 1, upVolume := 30,
          downVolume := 0, totalVolume := 30, delta := 30 } 70).vah =
        [{ index := 0, priceLow := 0, priceHigh := 1, priceLevel := 0, upVolume := 20,
           downVolume := 0, totalVolume := 20, delta := 20 },
         { index := 1, priceLow := 1, priceHigh := 2, priceLevel := 1, upVolume := 30,
           downVolume := 0, totalVolume := 30, delta := 30 },
         { index := 2, priceLow := 2, priceHigh := 3, priceLevel := 2, upVolume := 10,
           downVolume := 0, totalVolume := 10, delta := 10 }].getD hi
          { index := 1, priceLow := 1, priceHigh := 2, priceLevel := 1, upVolume := 30,
            downVolume := 0, totalVolume := 30, delta := 30 } ∧
      (calculateValueArea
        [{ index := 0, priceLow := 0, priceHigh := 1, priceLevel := 0, upVolume := 20,
           downVolume := 0, totalVolume := 20, delta := 20 },
         { index := 1, priceLow := 1, priceHigh := 2, priceLevel := 1, upVolume := 30,
           downVolume := 0, totalVolume := 30, delta := 30 },
         { index := 2, priceLow := 2, priceHigh := 3, priceLevel := 2, upVolume := 10,
           downVolume := 0, totalVolume := 10, delta := 10 }]
        { index := 1, priceLow := 1, priceHigh := 2, priceLevel := 1, upVolume := 30,
          downVolume := 0, totalVolume := 30, delta := 30 } 70).val =
        [{ index := 0, priceLow := 0, priceHigh := 1, priceLevel := 0, upVolume := 20,
           downVolume := 0, totalVolume := 20, delta := 20 },
         { index := 1, priceLow := 1, priceHigh := 2, priceLevel := 1, upVolume := 30,
           downVolume := 0, totalVolume := 30, delta := 30 },
         { index := 2, priceLow := 2, priceHigh := 3, priceLevel := 2, upVolume := 10,
           downVolume := 0, totalVolume := 10, delta := 10 }].getD lo
          { index := 1, priceLow := 1, priceHigh := 2, priceLevel := 1, upVolume := 30,
            downVolume := 0, totalVolume := 30, delta := 30 } :=
  value_area_contiguous
    [{ index := 0, priceLow := 0, priceHigh := 1, priceLevel := 0, upVolume := 20,
       downVolume := 0, totalVolume := 20, delta := 20 },
     { index := 1, priceLow := 1, priceHigh := 2, priceLevel := 1, upVolume := 30,
       downVolume := 0, totalVolume := 30, delta := 30 },
     { index := 2, priceLow := 2, priceHigh := 3, priceLevel := 2, upVolume := 10,
       downVolume := 0, totalVolume := 10, delta := 10 }]
    { index := 1, priceLow := 1, priceHigh := 2, priceLevel := 1, upVolume := 30,
      downVolume := 0, totalVolume := 30, delta := 30 } 70
    (by with_unfolding_all decide) (by with_unfolding_all decide)
    (by with_unfolding_all decide)

theorem addBarToRow_totalVolume (bar : Bar) (row : ProfileRow) :
    (addBarToRow bar row).totalVolume = row.totalVolume + barRowContribution bar row := by
  unfold addBarToRow barRowContribution
  by_cases h : rangesOverlap bar.low bar.high row.priceLow row.priceHigh = true
  · rw [if_pos h, if_pos h]
  · rw [if_neg h, if_neg h, add_zero]

theorem addBarToRow_priceLow (bar : Bar) (row : ProfileRow) :
    (addBarToRow bar row).priceLow = row.priceLow := by
  unfold addBarToRow
  by_cases h : rangesOverlap bar.low bar.high row.priceLow row.priceHigh = true
  · rw [if_pos h]
  · rw [if_neg h]

theorem addBarToRow_priceHigh (bar : Bar) (row : ProfileRow) :
    (addBarToRow bar row).priceHigh = row.priceHigh := by
  unfold addBarToRow
  by_cases h : rangesOverlap bar.low bar.high row.priceLow row.priceHigh = true
  · rw [if_pos h]
  · rw [if_neg h]

theorem barRowContribution_addBarToRow (bar b' : Bar) (row : ProfileRow) :
    barRowContribution bar (addBarToRow b' row) = barRowContribution bar row := by
  unfold barRowContribution
  rw [addBarToRow_priceLow, addBarToRow_priceHigh]

theorem totalVolumeOf_map_addBarToRow (bar : Bar) (rows : List ProfileRow) :
    totalVolumeOf (rows.map (addBarToRow bar)) =
      totalVolumeOf rows + (rows.map (fun r => barRowContribution bar r)).sum := by
  unfold totalVolumeOf
  induction rows with
  | nil => simp
  | cons r t ih =>
      simp only [List.map_cons, List.sum_cons]
      rw [ih, addBarToRow_totalVolume]
      ring

theorem distributeVolume_totalVolume (bars : List Bar) (rows : List ProfileRow) :
    totalVolumeOf (distributeVolume bars rows) =
      totalVolumeOf rows +
        (bars.map (fun bar => (rows.map (fun r => barRowContribution bar r)).sum)).sum := by
  unfold distributeVolume
  induction bars generalizing rows with
  | nil => simp
  | cons b bs ih =>
      rw [List.foldl_cons, ih, totalVolumeOf_map_addBarToRow]
      simp only [List.map_cons, List.sum_cons]
      have hinv : ∀ bar : Bar,
          ((rows.map (addBarToRow b)).map (fun r => barRowContribution bar r)) =
            rows.map (fun r => barRowContribution bar r) := by
        intro bar
        rw [List.map_map]
        apply List.map_congr_left
        intro r _
        exact barRowContribution_addBarToRow bar b r
      have : (bs.map (fun bar =>
          ((rows.map (addBarToRow b)).map (fun r => barRowContribution bar r)).sum)) =
          bs.map (fun bar => (rows.map (fun r => barRowContribution bar r)).sum) := by
        apply List.map_congr_left
        intro bar _
        rw [hinv bar]
      rw [this]
      ring

theorem sum_map_range (n : Nat) (f : Nat → ℚ) :
    ((List.range n).map f).sum = ∑ i ∈ Finset.range n, f i := by
  induction n with
  | zero => rfl
  | succ k ih =>
      rw [List.range_succ, List.map_append, List.sum_append, Finset.sum_range_succ, ih]
      simp

theorem tele_aux (g : Nat → ℚ) (n : Nat) (hmono : ∀ i, i < n → g i ≤ g (i + 1))
    (a b : ℚ) (h0 : g 0 ≤ a) (hab : a ≤ b) :
    ∀ k, k ≤ n → ∑ i ∈ Finset.range k, max 0 (min b (g (i + 1)) - max a (g i)) =
      max 0 (min b (g k) - a) := by
  intro k
  induction k with
  | zero =>
      intro _
      rw [Finset.sum_range_zero]
      have : min b (g 0) - a ≤ 0 := by
        have := min_le_right b (g 0)
        linarith
      rw [max_eq_left this]
  | succ k ih =>
      intro hk1
      have hk : k < n := by omega
      rw [Finset.sum_range_succ, ih (by omega)]
      rcases le_total (g k) a with hka | hak
      · have h1 : max 0 (min b (g k) - a) = 0 := by
          apply max_eq_left
          have := min_le_right b (g k)
          linarith
        have h2 : max a (g k) = a := max_eq_left hka
        rw [h1, h2, zero_add]
      · have h2 : max a (g k) = g k := max_eq_right hak
        rw [h2]
        rcases le_total b (g k) with hbk | hkb
        · have hbk1 : b ≤ g (k + 1) := le_trans hbk (hmono k hk)
          rw [min_eq_left hbk, min_eq_left hbk1]
          have h3 : max 0 (b - g k) = 0 := max_eq_left (by linarith)
          rw [h3, add_zero]
        · rw [min_eq_right hkb]
          have h3 : max 0 (g k - a) = g k - a := max_eq_right (by linarith)
          rw [h3]
          rcases le_total b (g (k + 1)) with hbk1 | hk1b
          · rw [min_eq_left hbk1]
            have h4 : max 0 (b - g k) = b - g k := max_eq_right (by linarith)
            have h5 : max 0 (b - a) = b - a := max_eq_right (by linarith)
            rw [h4, h5]
            ring
          · rw [min_eq_right hk1b]
            have hmk := hmono k hk
            have h4 : max 0 (g (k + 1) - g k) = g (k + 1) - g k :=
              max_eq_right (by linarith)
            have h5 : max 0 (g (k + 1) - a) = g (k + 1) - a :=
              max_eq_right (by linarith)
            rw [h4, h5]
            ring

theorem barRowContribution_formula (bar : Bar) (row : ProfileRow)
    (h : bar.low < bar.high) :
    barRowContribution bar row = (bar.volume / (bar.high - bar.low)) *
      max 0 (min bar.high row.priceHigh - max bar.low row.priceLow) := by
  unfold barRowContribution overlapFraction
  by_cases hov : bar.low ≤ row.priceHigh ∧ row.priceLow ≤ bar.high
  · have hb : rangesOverlap bar.low bar.high row.priceLow row.priceHigh = true := by
      unfold rangesOverlap
      simp [hov.1, hov.2]
    rw [if_pos hb, if_pos (by linarith : (0 : ℚ) < bar.high - bar.low)]
    ring
  · have hb : ¬ rangesOverlap bar.low bar.high row.priceLow row.priceHigh = true := by
      unfold rangesOverlap
      simp only [Bool.and_eq_true, decide_eq_true_eq]
      exact hov
    rw [if_neg hb]
    have hneg : min bar.high row.priceHigh - max bar.low row.priceLow < 0 := by
      rcases not_and_or.mp hov with h1 | h2
      · have ha := le_max_left bar.low row.priceLow
        have hb2 := min_le_right bar.high row.priceHigh
        push_neg at h1
        linarith
      · have ha := le_max_right bar.low row.priceLow
        have hb2 := min_le_left bar.high row.priceHigh
        push_neg at h2
        linarith
    rw [max_eq_left (le_of_lt hneg), mul_zero]

theorem createPriceLevelRows_eq (low high : ℚ) (s : Settings)
    (h : ¬ high - low = 0) :
    ∃ N : ℚ, 1 ≤ N ∧ createPriceLevelRows low high s =
      (List.range ⌈N⌉.toNat).map (mkProfileRow low high ((high - low) / N)) := by
  cases hl : s.rowsLayout with
  | Number =>
      refine ⟨max 1 s.rowSize, le_max_left _ _, ?_⟩
      simp only [createPriceLevelRows, hl]
  | Tick =>
      refine ⟨max 1 ((⌈(high - low) / s.rowSize⌉ : ℤ) : ℚ), le_max_left _ _, ?_⟩
      simp only [createPriceLevelRows, hl]
      rw [if_neg (by tauto : ¬ (high - low = 0 ∧ s.rowSize = 0))]
  | Percentage =>
      refine ⟨max 1 ((⌈(high - low) / (((high - low) * s.rowSize) / 100)⌉ : ℤ) : ℚ),
        le_max_left _ _, ?_⟩
      simp only [createPriceLevelRows, hl]
      rw [if_neg h]

theorem bar_contribution_sum (low high N : ℚ) (hN : 1 ≤ N) (bar : Bar)
    (hb1 : low ≤ bar.low) (hb2 : bar.high ≤ high) (hb3 : bar.low < bar.high) :
    (((List.range ⌈N⌉.toNat).map (mkProfileRow low high ((high - low) / N))).map
      (fun r => barRowContribution bar r)).sum = bar.volume := by
  have hN0 : (0 : ℚ) < N := lt_of_lt_of_le zero_lt_one hN
  have hlh : low < high := lt_of_le_of_lt hb1 (lt_of_lt_of_le hb3 hb2)
  have hrange : (0 : ℚ) ≤ high - low := by linarith
  set h := (high - low) / N with hh
  have hpos : (0 : ℚ) ≤ h := div_nonneg hrange (le_of_lt hN0)
  have hNh : N * h = high - low := by
    rw [hh]
    field_simp
  set count := ⌈N⌉.toNat with hcount
  have hceil_pos : (0 : ℤ) < ⌈N⌉ := Int.ceil_pos.mpr hN0
  have hcount_cast : ((count : ℕ) : ℚ) = ((⌈N⌉ : ℤ) : ℚ) := by
    rw [hcount]
    norm_cast
    omega
  have hcount_ge : N ≤ (count : ℚ) := by
    rw [hcount_cast]
    exact Int.le_ceil N
  have hi_lt : ∀ i : Nat, i < count → (i : ℚ) < N := by
    intro i hi
    have h1 : (i : ℚ) ≤ (count : ℚ) - 1 := by
      have : (i : ℕ) + 1 ≤ count := hi
      have := Nat.cast_le (α := ℚ).mpr this
      push_cast at this
      linarith
    have h2 : ((⌈N⌉ : ℤ) : ℚ) < N + 1 := Int.ceil_lt_add_one N
    rw [hcount_cast] at h1
    linarith
  set g : Nat → ℚ := fun i => min (low + (i : ℚ) * h) high with hg
  have hrow_low : ∀ i : Nat, i < count →
      (mkProfileRow low high h i).priceLow = g i := by
    intro i hi
    have hile : low + (i : ℚ) * h ≤ high := by
      have := hi_lt i hi
      have hmul : (i : ℚ) * h ≤ N * h :=
        mul_le_mul_of_nonneg_right (le_of_lt this) hpos
      rw [hNh] at hmul
      linarith
    unfold mkProfileRow
    simp only [hg]
    rw [min_eq_left hile]
  have hrow_high : ∀ i : Nat,
      (mkProfileRow low high h i).priceHigh = g (i + 1) := by
    intro i
    unfold mkProfileRow
    simp only [hg]
    have : low + (i : ℚ) * h + h = low + ((i : ℚ) + 1) * h := by ring
    rw [this]
    norm_cast
  have hmono : ∀ i : Nat, i < count → g i ≤ g (i + 1) := by
    intro i _
    simp only [hg]
    apply min_le_min _ (le_refl high)
    have : (i : ℚ) * h ≤ ((i : ℚ) + 1) * h := by nlinarith
    push_cast
    linarith
  have hg0 : g 0 ≤ bar.low := by
    simp only [hg]
    rw [Nat.cast_zero, zero_mul, add_zero, min_eq_left (le_of_lt hlh)]
    exact hb1
  have hgn : bar.high ≤ g count := by
    simp only [hg]
    have hch : N * h ≤ (count : ℚ) * h :=
      mul_le_mul_of_nonneg_right hcount_ge hpos
    rw [hNh] at hch
    have : high ≤ low + (count : ℚ) * h := by linarith
    rw [min_eq_right (by linarith)]
    exact hb2
  rw [List.map_map, sum_map_range]
  have hpt : ∀ i ∈ Finset.range count,
      ((fun r => barRowContribution bar r) ∘ mkProfileRow low high h) i =
        (bar.volume / (bar.high - bar.low)) *
          max 0 (min bar.high (g (i + 1)) - max bar.low (g i)) := by
    intro i hi
    rw [Finset.mem_range] at hi
    show barRowContribution bar (mkProfileRow low high h i) = _
    rw [barRowContribution_formula bar _ hb3, hrow_high i, hrow_low i hi]
  rw [Finset.sum_congr rfl hpt, ← Finset.mul_sum]
  rw [tele_aux g count hmono bar.low bar.high hg0 (le_of_lt hb3) count (le_refl count)]
  rw [min_eq_left hgn]
  rw [max_eq_right (by linarith : (0 : ℚ) ≤ bar.high - bar.low)]
  rw [div_mul_cancel₀]
  linarith

theorem totalVolumeOf_map_mkProfileRow (low high ars : ℚ) (n : Nat) :
    totalVolumeOf ((List.range n).map (mkProfileRow low high ars)) = 0 := by
  unfold totalVolumeOf
  rw [List.map_map]
  have hfn : ((fun r => ProfileRow.totalVolume r) ∘ mkProfileRow low high ars) =
      fun _ => (0 : ℚ) := by
    funext i
    rfl
  rw [hfn]
  simp

theorem totalVolumeOf_createPriceLevelRows (low high : ℚ) (s : Settings) :
    totalVolumeOf (createPriceLevelRows low high s) = 0 := by
  unfold createPriceLevelRows
  cases hsl : s.rowsLayout with
  | Number =>
      simp only [hsl]
      exact totalVolumeOf_map_mkProfileRow _ _ _ _
  | Tick =>
      simp only [hsl]
      by_cases hc : high - low = 0 ∧ s.rowSize = 0
      · rw [if_pos hc]
        rfl
      · rw [if_neg hc]
        exact totalVolumeOf_map_mkProfileRow _ _ _ _
  | Percentage =>
      simp only [hsl]
      by_cases hc : high - low = 0
      · rw [if_pos hc]
        rfl
      · rw [if_neg hc]
        exact totalVolumeOf_map_mkProfileRow _ _ _ _

theorem profileLowOf_le {bars : List Bar} {b : Bar} (hb : b ∈ bars) :
    profileLowOf bars ≤ b.low := by
  unfold profileLowOf
  cases h : (bars.map (fun x => x.low)).min? with
  | none =>
      rw [List.min?_eq_none_iff] at h
      rw [List.map_eq_nil_iff] at h
      subst h
      simp at hb
  | some m =>
      have hiff := (@List.min?_eq_some_iff ℚ m _ _ ⟨fun h1 h2 => le_antisymm h1 h2⟩
        (fun a => le_refl a) min_choice (fun a b c => le_min_iff)
        (bars.map (fun x => x.low))).mp h
      exact hiff.2 b.low (List.mem_map.mpr ⟨b, hb, rfl⟩)

theorem le_profileHighOf {bars : List Bar} {b : Bar} (hb : b ∈ bars) :
    b.high ≤ profileHighOf bars := by
  unfold profileHighOf
  cases h : (bars.map (fun x => x.high)).max? with
  | none =>
      rw [List.max?_eq_none_iff] at h
      rw [List.map_eq_nil_iff] at h
      subst h
      simp at hb
  | some m =>
      have hiff := (@List.max?_eq_some_iff ℚ m _ _ ⟨fun h1 h2 => le_antisymm h1 h2⟩
        (fun a => le_refl a) max_choice (fun a b c => max_le_iff)
        (bars.map (fun x => x.high))).mp h
      exact hiff.2 b.high (List.mem_map.mpr ⟨b, hb, rfl⟩)

/-- Counterexample to C3 as stated: a zero-width bar (`high == low`) with
positive volume lies inside the profile range but contributes nothing, so the
row total (100) differs from the input total (150). -/
theorem frvp_volume_conservation_counterexample :
    (profileLowOf [({ time := 0, open_ := 0, high := 2, low := 0, close := 1, volume := 100 } : Bar),
        { time := 60, open_ := 1, high := 1, low := 1, close := 1, volume := 50 }] ≤ 0 ∧
      (2 : ℚ) ≤ profileHighOf [({ time := 0, open_ := 0, high := 2, low := 0, close := 1, volume := 100 } : Bar),
        { time := 60, open_ := 1, high := 1, low := 1, close := 1, volume := 50 }] ∧
      profileLowOf [({ time := 0, open_ := 0, high := 2, low := 0, close := 1, volume := 100 } : Bar),
        { time := 60, open_ := 1, high := 1, low := 1, close := 1, volume := 50 }] ≤ 1 ∧
      (1 : ℚ) ≤ profileHighOf [({ time := 0, open_ := 0, high := 2, low := 0, close := 1, volume := 100 } : Bar),
        { time := 60, open_ := 1, high := 1, low := 1, close := 1, volume := 50 }]) ∧
    totalVolumeOf (distributeVolume
      [({ time := 0, open_ := 0, high := 2, low := 0, close := 1, volume := 100 } : Bar),
       { time := 60, open_ := 1, high := 1, low := 1, close := 1, volume := 50 }]
      (createPriceLevelRows
        (profileLowOf [({ time := 0, open_ := 0, high := 2, low := 0, close := 1, volume := 100 } : Bar),
          { time := 60, open_ := 1, high := 1, low := 1, close := 1, volume := 50 }])
        (profileHighOf [({ time := 0, open_ := 0, high := 2, low := 0, close := 1, volume := 100 } : Bar),
          { time := 60, open_ := 1, high := 1, low := 1, close := 1, volume := 50 }])
        { rowSize := 1, rowsLayout := RowsLayout.Number, valueAreaVolume := 70,
          developingPOC := false, developingVA := false })) = 100 ∧
    (([({ time := 0, open_ := 0, high := 2, low := 0, close := 1, volume := 100 } : Bar),
       { time := 60, open_ := 1, high := 1, low := 1, close := 1, volume := 50 }]).map
      (fun b => b.volume)).sum = 150 ∧
    ¬ (100 : ℚ) = 150 := by
  refine ⟨?_, ?_, ?_, ?_⟩
  · with_unfolding_all decide
  · with_unfolding_all decide
  · with_unfolding_all decide
  · with_unfolding_all decide

/-- C3 (amended): volume conservation holds whenever every bar additionally
has a non-degenerate price range (`low < high`): the distributed row totals
sum exactly (in exact arithmetic) to the total input volume. -/
theorem frvp_volume_conservation (bars : List Bar) (settings : Settings)
    (hbars : ∀ b ∈ bars, b.low < b.high) :
    totalVolumeOf (distributeVolume bars
      (createPriceLevelRows (profileLowOf bars) (profileHighOf bars) settings)) =
      (bars.map (fun b => b.volume)).sum := by
  cases hb : bars with
  | nil =>
      rw [show distributeVolume []
          (createPriceLevelRows (profileLowOf []) (profileHighOf []) settings) =
          createPriceLevelRows (profileLowOf []) (profileHighOf []) settings from rfl,
        totalVolumeOf_createPriceLevelRows]
      rfl
  | cons b0 rest =>
      rw [← hb]
      have hmem : b0 ∈ bars := by
        rw [hb]
        exact List.mem_cons_self b0 rest
      have hrange : ¬ profileHighOf bars - profileLowOf bars = 0 := by
        have h1 := profileLowOf_le hmem
        have h2 := le_profileHighOf hmem
        have h3 := hbars b0 hmem
        intro hcon
        linarith
      obtain ⟨N, hN, heq⟩ :=
        createPriceLevelRows_eq (profileLowOf bars) (profileHighOf bars) settings hrange
      rw [distributeVolume_totalVolume, totalVolumeOf_createPriceLevelRows, zero_add]
      apply congrArg List.sum
      apply List.map_congr_left
      intro bar hbar
      rw [heq]
      exact bar_contribution_sum (profileLowOf bars) (profileHighOf bars) N hN bar
        (profileLowOf_le hbar) (le_profileHighOf hbar) (hbars bar hbar)

/-- Witness for C3 (amended): a single non-degenerate bar. -/
theorem frvp_volume_conservation_witness :
    (∀ b ∈ [({ time := 0, open_ := 10, high := 12, low := 9, close := 11, volume := 100 } : Bar)],
      b.low < b.high) ∧
    totalVolumeOf (distributeVolume
      [({ time := 0, open_ := 10, high := 12, low := 9, close := 11, volume := 100 } : Bar)]
      (createPriceLevelRows
        (profileLowOf [({ time := 0, open_ := 10, high := 12, low := 9, close := 11, volume := 100 } : Bar)])
        (profileHighOf [({ time := 0, open_ := 10, high := 12, low := 9, close := 11, volume := 100 } : Bar)])
        { rowSize := 2, rowsLayout := RowsLayout.Number, valueAreaVolume := 70,
          developingPOC := false, developingVA := false })) =
      (([({ time := 0, open_ := 10, high := 12, low := 9, close := 11, volume := 100 } : Bar)]).map
        (fun b => b.volume)).sum :=
  ⟨by with_unfolding_all decide,
   frvp_volume_conservation _ _ (by with_unfolding_all decide)⟩

theorem filterMap_length_of_all_some {α β : Type} (f : α → Option β) (l : List α)
    (h : ∀ x ∈ l, (f x).isSome) : (l.filterMap f).length = l.length := by
  induction l with
  | nil => rfl
  | cons a t ih =>
      rw [List.filterMap_cons]
      cases hfa : f a with
      | none =>
          have := h a (List.mem_cons_self a t)
          rw [hfa] at this
          simp at this
      | some b =>
          simp only [List.length_cons]
          rw [ih (fun x hx => h x (List.mem_cons_of_mem a hx))]

theorem calculateDeveloping_length (minuteBars : List Bar) (settings : Settings)
    (h : minuteBars ≠ []) (hl : settings.rowsLayout = RowsLayout.Number) :
    (calculateDeveloping minuteBars settings).length =
      minuteBars.length / max 1 (minuteBars.length / 50) := by
  unfold calculateDeveloping
  rw [filterMap_length_of_all_some, List.length_map, List.length_range]
  intro x hx
  obtain ⟨k, _, rfl⟩ := List.mem_map.mp hx
  have hstep1 : 1 ≤ max 1 (minuteBars.length / 50) := le_max_left _ _
  have histep : 1 ≤ (k + 1) * max 1 (minuteBars.length / 50) := by
    calc 1 = 1 * 1 := by omega
      _ ≤ (k + 1) * max 1 (minuteBars.length / 50) :=
        Nat.mul_le_mul (by omega) hstep1
  have htake : minuteBars.take ((k + 1) * max 1 (minuteBars.length / 50)) ≠ [] := by
    rw [← List.length_pos, List.length_take]
    have hn : 0 < minuteBars.length := List.length_pos.mpr h
    omega
  obtain ⟨p, hp⟩ := calculateProfileCore_Number_ok _
    { settings with developingPOC := false, developingVA := false } htake (by simp [hl])
  simp only [hp]
  rfl

/-- C9 (the code at the failing input): with 51 input bars the sampling step
is `max(1, ⌊51/50⌋) = 1` and `calculateDeveloping` emits one point per prefix —
51 points, exceeding the documented maximum of 50 samples. -/
theorem developing_sample_count_51 :
    (calculateDeveloping
      ((List.range 51).map (fun (k : Nat) =>
        { time := (k : Int), open_ := 1, high := 2, low := 1, close := 2, volume := 1 }))
      { rowSize := 1, rowsLayout := RowsLayout.Number, valueAreaVolume := 70,
        developingPOC := true, developingVA := false }).length = 51 ∧ 50 < 51 := by
  constructor
  · rw [calculateDeveloping_length]
    · simp
    · simp [ne_eq, List.map_eq_nil_iff, List.range_eq_nil]
    · rfl
  · omega

end CandleChartSpec
